import Mathlib

/-!
Verification development for the stickochet-robot puzzle engine
(`src/Game.cpp`).  The board is stored exactly as in the source: two flat
lists indexed by `y * board_size.x + x`, one holding the wall/floor meshes
(`board_meshes`) and one holding the objective overlay meshes
(`goal_meshes`, where the null pointer is modelled by `Overlay.vacant`).
The mersenne-twister stream `mt` is modelled as an arbitrary stream of
naturals together with a read position; each `mt()` call reads the value
at the position and advances it.
-/

namespace Stickochet

/-- Values stored in `board_meshes`: each cell holds either the wall mesh
or the floor mesh. -/
inductive Base
  | wall
  | floor
  deriving DecidableEq

/-- Values stored in `goal_meshes`: the null pointer (`vacant`), the goop
(sticky) mesh, the checkpoint mesh, the collected-checkpoint mesh, or the
goal mesh. -/
inductive Overlay
  | vacant
  | goop
  | checkpoint
  | checkpointCollected
  | goal
  deriving DecidableEq

/-- The pseudo-random stream: the sequence of values produced by `mt()`
together with the current read position. -/
structure Rng where
  stream : Nat → Nat
  pos : Nat

/-- One `mt()` draw: read the current value and advance the stream. -/
def Rng.next (r : Rng) : Nat × Rng := (r.stream r.pos, ⟨r.stream, r.pos + 1⟩)

/-- Flat board index `y * board_size.x + x` as computed by the source on
(unsigned, here integer) coordinates. -/
def idx (w : Nat) (x y : Int) : Nat := (y * w + x).toNat

/-- The full game state mutated by `Game.cpp`: the two board layers, the
player position, the checkpoint counter and the win flag. -/
structure GameState where
  boardMeshes : List Base
  goalMeshes : List Overlay
  player : Int × Int
  checkpoints : Nat
  won : Bool

/-- The shared slide loop of `Game::move_player` (lines 507-512) and of the
random-walk simulation in `Game::create_board` (lines 453-456): step in
direction `(dx, dy)` while the next cell is not a wall, breaking as soon as
the newly entered cell carries goop.  The source loop has no bound; the
fuel argument is instantiated with `w + h`, which is enough steps to reach
a border wall on every board whose perimeter is wall. -/
def slide (w : Nat) (bm : List Base) (gm : List Overlay) (dx dy : Int) :
    Nat → Int × Int → Int × Int
  | 0, p => p
  | fuel+1, p =>
    if bm.getD (idx w (p.1 + dx) (p.2 + dy)) Base.wall = Base.wall then p
    else if gm.getD (idx w (p.1 + dx) (p.2 + dy)) Overlay.vacant = Overlay.goop then
      (p.1 + dx, p.2 + dy)
    else slide w bm gm dx dy fuel (p.1 + dx, p.2 + dy)

/-- `Game::move_player` (lines 503-521): slide the player, collect a
checkpoint at the resting cell (re-tagging it as collected and bumping the
counter), and recompute the win flag from the resting cell's overlay after
any collection. -/
def move_player (w h : Nat) (g : GameState) (dx dy : Int) : GameState :=
  let p := slide w g.boardMeshes g.goalMeshes dx dy (w + h) g.player
  let i := idx w p.1 p.2
  if g.goalMeshes.getD i Overlay.vacant = Overlay.checkpoint then
    let gm := g.goalMeshes.set i Overlay.checkpointCollected
    { g with
      player := p
      goalMeshes := gm
      checkpoints := g.checkpoints + 1
      won := decide (gm.getD i Overlay.vacant = Overlay.goal) }
  else
    { g with
      player := p
      won := decide (g.goalMeshes.getD i Overlay.vacant = Overlay.goal) }

/-- Step 1 of `Game::create_board` (lines 404-409): fill the whole board
with walls, then set every interior cell (`1 ≤ x`, `x + 1 < w`, `1 ≤ y`,
`y + 1 < h`) to floor. -/
def interiorFloorFill (w h : Nat) : List Base :=
  (List.range' 1 (w - 2)).foldl (fun bm x =>
      (List.range' 1 (h - 2)).foldl (fun bm y => bm.set (y * w + x) Base.floor) bm)
    (List.replicate (w * h) Base.wall)

/-- The `random_board_position` lambda (lines 412-417): two draws giving a
uniformly random interior cell. -/
def randomBoardPosition (w h : Nat) (r : Rng) : (Int × Int) × Rng :=
  let a := r.next
  let b := a.2.next
  ((Int.ofNat (a.1 % (w - 2) + 1), Int.ofNat (b.1 % (h - 2) + 1)), b.2)

/-- Step 2 of `Game::create_board` (lines 419-427): draw `mt() % 8 + 2`
random walls; each is placed at a random interior cell unless that cell is
the player's position (which is skipped without a retry). -/
def placeWalls (w h : Nat) (player : Int × Int) (bm : List Base) (r : Rng) :
    List Base × Rng :=
  let n := r.next
  (List.range (n.1 % 8 + 2)).foldl (fun (st : List Base × Rng) _ =>
      let pr := randomBoardPosition w h st.2
      if pr.1 = player then (st.1, pr.2)
      else (st.1.set (idx w pr.1.1 pr.1.2) Base.wall, pr.2))
    (bm, n.2)

/-- Step 3 of `Game::create_board` (lines 429-437): draw `mt() % 4` goops;
each is placed at a random interior cell unless that cell is currently a
wall (silently skipped). -/
def placeGoops (w h : Nat) (bm : List Base) (gm : List Overlay) (r : Rng) :
    List Overlay × Rng :=
  let n := r.next
  (List.range (n.1 % 4)).foldl (fun (st : List Overlay × Rng) _ =>
      let pr := randomBoardPosition w h st.2
      if bm.getD (idx w pr.1.1 pr.1.2) Base.wall ≠ Base.wall then
        (st.1.set (idx w pr.1.1 pr.1.2) Overlay.goop, pr.2)
      else (st.1, pr.2))
    (gm, n.2)

/-- The `directions` array of the random walk (lines 448-451). -/
def directions : Nat → Int × Int
  | 0 => (-1, 0)
  | 1 => (1, 0)
  | 2 => (0, -1)
  | _ => (0, 1)

/-- One step of a simulated random walk (lines 452-457): draw a direction,
slide from the current cell, and bump the visit counter of the resting
cell. -/
def walkStep (w h : Nat) (bm : List Base) (gm : List Overlay)
    (st : (Int × Int) × List Nat × Rng) : (Int × Int) × List Nat × Rng :=
  let dn := st.2.2.next
  let d := directions (dn.1 % 4)
  let a := slide w bm gm d.1 d.2 (w + h) st.1
  let i := idx w a.1 a.2
  (a, st.2.1.set i (st.2.1.getD i 0 + 1), dn.2)

/-- The visit-count simulation (lines 444-459): 100 random walks of 20
steps each, all starting from `start`, accumulated into one flat counter
vector initialised to zero. -/
def runWalks (w h : Nat) (bm : List Base) (gm : List Overlay) (start : Int × Int)
    (r : Rng) : List Nat × Rng :=
  (List.range 100).foldl (fun (st : List Nat × Rng) _ =>
      let res := (List.range 20).foldl (fun st2 _ => walkStep w h bm gm st2)
        (start, st.1, st.2)
      (res.2.1, res.2.2))
    (List.replicate (w * h) 0, r)

/-- The candidate scan (lines 461-470): every cell, scanned row by row,
that is not the player's cell, has a null overlay, and has a positive
visit count. -/
def possibleCells (w h : Nat) (player : Int × Int) (gm : List Overlay)
    (counts : List Nat) : List (Int × Int) :=
  (List.range h).foldl (fun acc y =>
      (List.range w).foldl (fun acc x =>
          if Int.ofNat x = player.1 ∧ Int.ofNat y = player.2 then acc
          else if gm.getD (y * w + x) Overlay.vacant ≠ Overlay.vacant then acc
          else if 0 < counts.getD (y * w + x) 0 then
            acc ++ [(Int.ofNat x, Int.ofNat y)]
          else acc)
        acc)
    []

/-- Stable insertion used to model `std::stable_sort` (line 475): a new
element goes after every already-placed element whose key is less than or
equal to its own, so elements with equal keys keep their relative input
order and the result is sorted ascending by key, exactly the contract of
`std::stable_sort` with the strict comparator `key a < key b`. -/
def insertByCount (key : Int × Int → Nat) (a : Int × Int) :
    List (Int × Int) → List (Int × Int)
  | [] => [a]
  | b :: bs => if key b ≤ key a then b :: insertByCount key a bs else a :: b :: bs

/-- Stable sort of the candidate list by ascending visit count
(lines 474-477), processed left to right. -/
def stableSortByCount (key : Int × Int → Nat) (l : List (Int × Int)) :
    List (Int × Int) :=
  l.foldl (fun acc a => insertByCount key a acc) []

/-- The limit-extension while loop (line 483): while `limit + 1` is still
an index of the list and the entries at positions `limit` and `limit + 1`
have the same key, increment `limit`.  The loop increments `limit` at each
iteration and stops once `limit + 1 ≥ length`, so `length` iterations of
fuel are always enough. -/
def extendLimitAux (key : Int × Int → Nat) (cells : List (Int × Int)) :
    Nat → Nat → Nat
  | 0, limit => limit
  | f+1, limit =>
    if limit + 1 < cells.length ∧
        key (cells.getD limit (0, 0)) = key (cells.getD (limit + 1) (0, 0)) then
      extendLimitAux key cells f (limit + 1)
    else limit

/-- The extension loop of line 483 with its fuel instantiated. -/
def extendLimit (key : Int × Int → Nat) (cells : List (Int × Int)) (limit : Nat) :
    Nat :=
  extendLimitAux key cells cells.length limit

/-- Result of one full `create_board` attempt (no retry). -/
structure AttemptOut where
  bm : List Base
  gm : List Overlay
  goals : Nat
  prevGoal : Int × Int
  rng : Rng

/-- Step 4 of `Game::create_board` (lines 440-490): the `while (goals < 2)`
placement loop.  Each iteration runs the walk simulation from the previous
goal, scans the candidates, stops if there are none, and otherwise places a
checkpoint at a random candidate among the most difficult `limit` entries.
`goals` grows by one per iteration, so fuel `2 - goals` (here passed as an
explicit argument, `2` at the top call) drives the recursion. -/
def goalLoop (w h : Nat) (player : Int × Int) (bm : List Base) :
    Nat → List Overlay → Nat → (Int × Int) → Rng → AttemptOut
  | 0, gm, goals, prevGoal, r => ⟨bm, gm, goals, prevGoal, r⟩
  | fuel+1, gm, goals, prevGoal, r =>
    if goals < 2 then
      let wk := runWalks w h bm gm prevGoal r
      let cells := possibleCells w h player gm wk.1
      if cells.isEmpty then ⟨bm, gm, goals, prevGoal, wk.2⟩
      else
        let key := fun (c : Int × Int) => wk.1.getD (idx w c.1 c.2) 0
        let sorted := stableSortByCount key cells
        let limit := extendLimit key sorted (max 1 (sorted.length / 4))
        let dn := wk.2.next
        let g := sorted.getD (dn.1 % limit) (0, 0)
        goalLoop w h player bm fuel (gm.set (idx w g.1 g.2) Overlay.checkpoint)
          (goals + 1) g dn.2
    else ⟨bm, gm, goals, prevGoal, r⟩

/-- One complete pass of `Game::create_board` without the retry (lines
400-490): base terrain, random walls, random goops, then the checkpoint
placement loop started with zero goals from the player's position. -/
def create_board_attempt (w h : Nat) (player : Int × Int) (r : Rng) : AttemptOut :=
  let bm0 := interiorFloorFill w h
  let gm0 := List.replicate (w * h) Overlay.vacant
  let pw := placeWalls w h player bm0 r
  let pg := placeGoops w h pw.1 gm0 pw.2
  goalLoop w h player pw.1 2 pg.1 0 player pg.2

/-- `Game::create_board` (lines 400-501) including the self-recursive retry
of lines 492-496: if an attempt places zero goals the whole procedure
restarts on the advanced stream.  The C++ recursion is unbounded; `fuel`
bounds the number of attempts in the model and `none` means every allowed
attempt failed, i.e. the source would still be retrying. -/
def create_board : Nat → (w h : Nat) → (Int × Int) → Rng →
    Option ((List Base × List Overlay) × Rng)
  | 0, _, _, _, _ => none
  | fuel+1, w, h, p, r =>
    let a := create_board_attempt w h p r
    if a.goals = 0 then create_board fuel w h p a.rng
    else some ((a.bm, a.gm.set (idx w a.prevGoal.1 a.prevGoal.2) Overlay.goal), a.rng)

/-- Effect of a `create_board` call on the full game state: the two board
layers are replaced wholesale; no other field of `Game` is written by
`Game::create_board`. -/
def applyCreate (fuel w h : Nat) (g : GameState) (r : Rng) :
    Option (GameState × Rng) :=
  (create_board fuel w h g.player r).map fun res =>
    ({ g with boardMeshes := res.1.1, goalMeshes := res.1.2 }, res.2)

/-- The backspace (give-up) branch of `Game::handle_event` (lines 244-248):
decrement the checkpoint counter if it is positive, then regenerate. -/
def give_up (fuel w h : Nat) (g : GameState) (r : Rng) : Option (GameState × Rng) :=
  let g1 := if 0 < g.checkpoints then { g with checkpoints := g.checkpoints - 1 } else g
  applyCreate fuel w h g1 r

/-- The space (advance-level) branch of `Game::handle_event` (lines
249-254): regenerate only when the win flag is set. -/
def advance_level (fuel w h : Nat) (g : GameState) (r : Rng) :
    Option (GameState × Rng) :=
  if g.won then applyCreate fuel w h g r else some (g, r)

/-- The border invariant: every perimeter cell of the base layer holds the
wall mesh. -/
def perimWall (w h : Nat) (bm : List Base) : Prop :=
  ∀ x, x < w → ∀ y, y < h → (x = 0 ∨ x + 1 = w ∨ y = 0 ∨ y + 1 = h) →
    bm.getD (y * w + x) Base.wall = Base.wall

/-- No perimeter cell carries an objective or goop overlay. -/
def perimVacant (w h : Nat) (gm : List Overlay) : Prop :=
  ∀ x, x < w → ∀ y, y < h → (x = 0 ∨ x + 1 = w ∨ y = 0 ∨ y + 1 = h) →
    gm.getD (y * w + x) Overlay.vacant = Overlay.vacant

/-- The position is strictly inside the border. -/
def interiorPos (w h : Nat) (p : Int × Int) : Prop :=
  1 ≤ p.1 ∧ p.1 + 1 < (w : Int) ∧ 1 ≤ p.2 ∧ p.2 + 1 < (h : Int)

instance (w h : Nat) (bm : List Base) : Decidable (perimWall w h bm) := by
  unfold perimWall; infer_instance

instance (w h : Nat) (gm : List Overlay) : Decidable (perimVacant w h gm) := by
  unfold perimVacant; infer_instance

instance (w h : Nat) (p : Int × Int) : Decidable (interiorPos w h p) := by
  unfold interiorPos; infer_instance

/-- Occurrence count of an overlay value in the overlay layer. -/
def countO (v : Overlay) : List Overlay → Nat
  | [] => 0
  | a :: l => (if a = v then 1 else 0) + countO v l

/-- Termination of the retrying generator: some finite number of attempts
produces a board. -/
def CreateBoardTerminates (w h : Nat) (p : Int × Int) (r : Rng) : Prop :=
  ∃ fuel, (create_board fuel w h p r).isSome = true

/-- The stream position reached after `k` failed attempts. -/
def retryStream (w h : Nat) (p : Int × Int) (r : Rng) : Nat → Rng
  | 0 => r
  | k+1 => (create_board_attempt w h p (retryStream w h p r k)).rng

/-- The constant-zero draw stream.  On a 4 by 3 board with the player at
`(1, 1)` every attempt draws two walls that land on the player (skipped),
zero goops, and 2000 leftward walk steps that never move, so every attempt
places zero goals and the generator retries forever. -/
def streamZero : Nat → Nat := fun _ => 0

/-- A draw stream for a 4 by 3 board with the player at `(1, 1)`: two
skipped walls, no goop, all walk steps to the right.  The first placement
iteration puts a checkpoint on `(2, 1)`; the second finds no candidates, so
the attempt ends with one objective, which is re-tagged as the goal — the
returned board has a goal and no checkpoint at all. -/
def streamA : Nat → Nat := fun i => if i ≤ 5 ∨ i = 2006 then 0 else 1

/-- A draw stream for a 5 by 3 board with the player centred at `(2, 1)`:
two skipped walls, no goop, walk steps alternating right and left.  The
first placement iteration ends with the two candidates `(1, 1)` and
`(3, 1)` holding the same visit count 1000, exposing the tie handling of
the limit-extension loop. -/
def streamB : Nat → Nat := fun i =>
  if i = 0 ∨ i = 5 then 0
  else if i ≤ 4 then (if i % 2 = 1 then 1 else 0)
  else if i % 2 = 0 then 1 else 0

/-- A draw stream for a 4 by 3 board with the player at `(1, 1)`: two
skipped walls, then one goop drawn exactly at the player's own cell, then
rightward walks; the attempt succeeds, so the returned board carries goop
on the player's cell. -/
def streamC : Nat → Nat := fun i =>
  if i = 5 then 1 else if i ≤ 7 then 0 else if i = 2008 then 0 else 1

/-- A draw stream for a 4 by 3 board with the player at `(2, 1)`: two
skipped walls, no goop, leftward walks; the attempt succeeds with the goal
at `(1, 1)`. -/
def streamD : Nat → Nat := fun i => if i = 1 ∨ i = 3 then 1 else 0

/-- A draw stream for a 5 by 3 board with the player at `(1, 1)`: two
skipped walls, one goop at `(2, 1)`, rightward walks.  The first placement
iteration visits the goop cell `(2, 1)` (count 100) yet excludes it from
the candidate list because its overlay is not null. -/
def streamG : Nat → Nat := fun i =>
  if i = 0 then 0 else if i ≤ 4 then 0 else if i = 5 then 1
  else if i ≤ 7 then (if i = 6 then 1 else 0) else if i = 2008 then 0 else 1

/-- A game state whose win flag is set; its board fields are irrelevant to
regeneration. -/
def gsA : GameState := ⟨[], [], (1, 1), 0, true⟩

/-- The state `gsA` with the win flag cleared. -/
def gsB : GameState := ⟨[], [], (1, 1), 0, false⟩

/-- The state `gsA` with the player moved to `(2, 1)` and the flag
cleared. -/
def gsC : GameState := ⟨[], [], (2, 1), 0, false⟩

/-- A 5 by 5 board with an all-floor interior, the player at the centre. -/
def gsOpen : GameState :=
  ⟨interiorFloorFill 5 5, List.replicate 25 Overlay.vacant, (2, 2), 0, false⟩

/-- A 5 by 5 board with an all-floor interior, a checkpoint at `(3, 2)`
(flat index 13), the player at `(2, 2)` and seven collected checkpoints. -/
def gsCk : GameState :=
  ⟨interiorFloorFill 5 5, (List.replicate 25 Overlay.vacant).set 13 Overlay.checkpoint,
    (2, 2), 7, false⟩

/-!  Generic helper lemmas about folds and flat vectors.  -/

lemma foldl_inv {α β : Type} (P : β → Prop) (f : β → α → β) :
    ∀ (l : List α) (b : β), P b → (∀ b a, a ∈ l → P b → P (f b a)) → P (l.foldl f b)
  | [], b, hb, _ => hb
  | a :: l, b, hb, hf =>
    foldl_inv P f l (f b a) (hf b a (List.mem_cons_self a l) hb)
      (fun b x hx hb2 => hf b x (List.mem_cons_of_mem a hx) hb2)

lemma getD_set_self {α : Type} : ∀ (l : List α) (i : Nat) (v d : α), i < l.length →
    (l.set i v).getD i d = v
  | [], _, _, _, h => absurd h (by simp)
  | _ :: _, 0, _, _, _ => rfl
  | _ :: l, i+1, v, d, h => getD_set_self l i v d (by simpa using h)

lemma getD_set_ne {α : Type} : ∀ (l : List α) (i j : Nat) (v d : α), i ≠ j →
    (l.set i v).getD j d = l.getD j d
  | [], _, _, _, _, _ => rfl
  | _ :: _, 0, 0, _, _, h => absurd rfl h
  | _ :: _, 0, _+1, _, _, _ => rfl
  | _ :: _, _+1, 0, _, _, _ => rfl
  | _ :: l, i+1, j+1, v, d, h => getD_set_ne l i j v d (fun e => h (by rw [e]))

lemma getD_replicate {α : Type} (d : α) : ∀ (n i : Nat), (List.replicate n d).getD i d = d
  | 0, 0 => rfl
  | 0, _+1 => rfl
  | _+1, 0 => rfl
  | n+1, i+1 => getD_replicate d n i

lemma getD_mem {α : Type} : ∀ (l : List α) (i : Nat) (d : α), i < l.length →
    l.getD i d ∈ l
  | [], _, _, h => absurd h (by simp)
  | a :: l, 0, _, _ => List.mem_cons_self a l
  | a :: l, i+1, d, h => List.mem_cons_of_mem a (getD_mem l i d (by simpa using h))

lemma countO_eq_zero_of_not_mem (v : Overlay) :
    ∀ (l : List Overlay), v ∉ l → countO v l = 0
  | [], _ => rfl
  | a :: l, h => by
    have ha : ¬(a = v) := fun e => h (e ▸ List.mem_cons_self a l)
    simp only [countO, if_neg ha, Nat.zero_add]
    exact countO_eq_zero_of_not_mem v l (fun hv => h (List.mem_cons_of_mem a hv))

lemma countO_set (v b : Overlay) :
    ∀ (l : List Overlay) (i : Nat) (d : Overlay), i < l.length →
      countO v (l.set i b) + (if l.getD i d = v then 1 else 0)
        = countO v l + (if b = v then 1 else 0)
  | [], i, _, h => absurd h (by simp)
  | a :: l, 0, d, _ => by
    show countO v (b :: l) + (if a = v then 1 else 0)
      = countO v (a :: l) + (if b = v then 1 else 0)
    simp only [countO]
    ring
  | a :: l, i+1, d, h => by
    show countO v (a :: l.set i b) + (if l.getD i d = v then 1 else 0)
      = countO v (a :: l) + (if b = v then 1 else 0)
    have ih := countO_set v b l i d (by simpa using h)
    simp only [countO]
    omega

/-!  Properties of the shared slide loop.  -/

lemma idx_congr (w : Nat) {a b c d : Int} (h1 : a = c) (h2 : b = d) :
    idx w a b = idx w c d := by rw [h1, h2]

lemma slide_succ (w : Nat) (bm : List Base) (gm : List Overlay) (dx dy : Int)
    (fuel : Nat) (p : Int × Int) :
    slide w bm gm dx dy (fuel + 1) p =
      if bm.getD (idx w (p.1 + dx) (p.2 + dy)) Base.wall = Base.wall then p
      else if gm.getD (idx w (p.1 + dx) (p.2 + dy)) Overlay.vacant = Overlay.goop then
        (p.1 + dx, p.2 + dy)
      else slide w bm gm dx dy fuel (p.1 + dx, p.2 + dy) := rfl

/-- A slide either stays put or ends on a non-wall cell (it only ever steps
onto cells whose base is not the wall mesh). -/
lemma slide_eq_or_floor (w : Nat) (bm : List Base) (gm : List Overlay) (dx dy : Int) :
    ∀ (fuel : Nat) (p : Int × Int),
      slide w bm gm dx dy fuel p = p ∨
        bm.getD (idx w (slide w bm gm dx dy fuel p).1 (slide w bm gm dx dy fuel p).2)
          Base.wall ≠ Base.wall
  | 0, p => Or.inl rfl
  | fuel+1, p => by
    rw [slide_succ]
    by_cases h1 : bm.getD (idx w (p.1 + dx) (p.2 + dy)) Base.wall = Base.wall
    · rw [if_pos h1]; exact Or.inl rfl
    · rw [if_neg h1]
      by_cases h2 : gm.getD (idx w (p.1 + dx) (p.2 + dy)) Overlay.vacant = Overlay.goop
      · rw [if_pos h2]; exact Or.inr h1
      · rw [if_neg h2]
        rcases slide_eq_or_floor w bm gm dx dy fuel (p.1 + dx, p.2 + dy) with he | hf
        · rw [he]; exact Or.inr h1
        · exact Or.inr hf

/-- Full characterisation of one slide, given that some wall lies ahead
within the available fuel: the result is `n` steps along the direction,
every traversed cell (including the resting one) is free of walls, no cell
strictly before the resting one carries goop, and the slide stopped either
because the next cell is a wall or because the resting cell (after at
least one step) carries goop. -/
lemma slide_char (w : Nat) (bm : List Base) (gm : List Overlay) (dx dy : Int) :
    ∀ (fuel : Nat) (x y : Int),
      (∃ k : Nat, k < fuel ∧
        bm.getD (idx w (x + (k + 1) * dx) (y + (k + 1) * dy)) Base.wall = Base.wall) →
      ∃ n : Nat,
        slide w bm gm dx dy fuel (x, y) = (x + n * dx, y + n * dy) ∧
        (∀ i : Nat, 1 ≤ i → i ≤ n →
          bm.getD (idx w (x + i * dx) (y + i * dy)) Base.wall ≠ Base.wall) ∧
        (∀ i : Nat, 1 ≤ i → i < n →
          gm.getD (idx w (x + i * dx) (y + i * dy)) Overlay.vacant ≠ Overlay.goop) ∧
        (bm.getD (idx w (x + (n + 1) * dx) (y + (n + 1) * dy)) Base.wall = Base.wall ∨
          (1 ≤ n ∧
            gm.getD (idx w (x + n * dx) (y + n * dy)) Overlay.vacant = Overlay.goop))
  | 0, x, y, h => absurd h (by simp)
  | fuel+1, x, y, h => by
    by_cases h1 : bm.getD (idx w (x + dx) (y + dy)) Base.wall = Base.wall
    · refine ⟨0, ?_, fun i hi1 hi0 => absurd (Nat.le_trans hi1 hi0) (by omega), ?_, ?_⟩
      · rw [slide_succ, if_pos h1]; simp
      · intro i hi1 hi0; omega
      · left
        have e1 : x + ((0 : Nat) + 1) * dx = x + dx := by push_cast; ring
        have e2 : y + ((0 : Nat) + 1) * dy = y + dy := by push_cast; ring
        rw [idx_congr w e1 e2]; exact h1
    · by_cases h2 : gm.getD (idx w (x + dx) (y + dy)) Overlay.vacant = Overlay.goop
      · refine ⟨1, ?_, ?_, fun i hi1 hi0 => absurd (Nat.lt_of_le_of_lt hi1 hi0) (by omega), ?_⟩
        · rw [slide_succ, if_neg h1, if_pos h2]; simp
        · intro i hi1 hi0
          have hi : i = 1 := by omega
          subst hi
          have e1 : x + ((1 : Nat) : Int) * dx = x + dx := by push_cast; ring
          have e2 : y + ((1 : Nat) : Int) * dy = y + dy := by push_cast; ring
          rw [idx_congr w e1 e2]; exact h1
        · right
          refine ⟨le_refl 1, ?_⟩
          have e1 : x + ((1 : Nat) : Int) * dx = x + dx := by push_cast; ring
          have e2 : y + ((1 : Nat) : Int) * dy = y + dy := by push_cast; ring
          rw [idx_congr w e1 e2]; exact h2
      · obtain ⟨k, hk, hwall⟩ := h
        have hk0 : k ≠ 0 := by
          intro e
          subst e
          have e1 : x + ((0 : Nat) + 1) * dx = x + dx := by push_cast; ring
          have e2 : y + ((0 : Nat) + 1) * dy = y + dy := by push_cast; ring
          rw [idx_congr w e1 e2] at hwall
          exact h1 hwall
        obtain ⟨k0, rfl⟩ : ∃ k0, k = k0 + 1 := ⟨k - 1, by omega⟩
        have hwall2 : bm.getD
            (idx w ((x + dx) + ((k0 : Int) + 1) * dx) ((y + dy) + ((k0 : Int) + 1) * dy))
            Base.wall = Base.wall := by
          have e1 : (x + dx) + ((k0 : Int) + 1) * dx = x + (((k0 + 1 : Nat) : Int) + 1) * dx := by
            push_cast; ring
          have e2 : (y + dy) + ((k0 : Int) + 1) * dy = y + (((k0 + 1 : Nat) : Int) + 1) * dy := by
            push_cast; ring
          rw [idx_congr w e1 e2]; exact hwall
        obtain ⟨n0, hs, hbw, hgp, hstop⟩ :=
          slide_char w bm gm dx dy fuel (x + dx) (y + dy) ⟨k0, by omega, hwall2⟩
        refine ⟨n0 + 1, ?_, ?_, ?_, ?_⟩
        · rw [slide_succ, if_neg h1, if_neg h2]
          simp only at hs ⊢
          rw [hs, Prod.mk.injEq]
          exact ⟨by push_cast; ring, by push_cast; ring⟩
        · intro i hi1 hi2
          rcases Nat.lt_or_ge i 2 with hlt | hge
          · have hi : i = 1 := by omega
            subst hi
            have e1 : x + ((1 : Nat) : Int) * dx = x + dx := by push_cast; ring
            have e2 : y + ((1 : Nat) : Int) * dy = y + dy := by push_cast; ring
            rw [idx_congr w e1 e2]; exact h1
          · obtain ⟨j, rfl⟩ : ∃ j, i = j + 1 := ⟨i - 1, by omega⟩
            have e1 : x + ((j + 1 : Nat) : Int) * dx = (x + dx) + (j : Int) * dx := by
              push_cast; ring
            have e2 : y + ((j + 1 : Nat) : Int) * dy = (y + dy) + (j : Int) * dy := by
              push_cast; ring
            rw [idx_congr w e1 e2]
            exact hbw j (by omega) (by omega)
        · intro i hi1 hi2
          rcases Nat.lt_or_ge i 2 with hlt | hge
          · have hi : i = 1 := by omega
            subst hi
            have e1 : x + ((1 : Nat) : Int) * dx = x + dx := by push_cast; ring
            have e2 : y + ((1 : Nat) : Int) * dy = y + dy := by push_cast; ring
            rw [idx_congr w e1 e2]; exact h2
          · obtain ⟨j, rfl⟩ : ∃ j, i = j + 1 := ⟨i - 1, by omega⟩
            have e1 : x + ((j + 1 : Nat) : Int) * dx = (x + dx) + (j : Int) * dx := by
              push_cast; ring
            have e2 : y + ((j + 1 : Nat) : Int) * dy = (y + dy) + (j : Int) * dy := by
              push_cast; ring
            rw [idx_congr w e1 e2]
            exact hgp j (by omega) (by omega)
        · rcases hstop with hl | ⟨hn1, hg⟩
          · left
            have e1 : x + (((n0 + 1 : Nat) : Int) + 1) * dx = (x + dx) + ((n0 : Int) + 1) * dx := by
              push_cast; ring
            have e2 : y + (((n0 + 1 : Nat) : Int) + 1) * dy = (y + dy) + ((n0 : Int) + 1) * dy := by
              push_cast; ring
            rw [idx_congr w e1 e2]; exact hl
          · right
            refine ⟨by omega, ?_⟩
            have e1 : x + ((n0 + 1 : Nat) : Int) * dx = (x + dx) + (n0 : Int) * dx := by
              push_cast; ring
            have e2 : y + ((n0 + 1 : Nat) : Int) * dy = (y + dy) + (n0 : Int) * dy := by
              push_cast; ring
            rw [idx_congr w e1 e2]; exact hg

lemma idx_nat (w x y : Nat) : idx w (x : Int) (y : Int) = y * w + x := by
  unfold idx
  rw [← Nat.cast_mul, ← Nat.cast_add, Int.toNat_natCast]

/-- Under the border invariant, a wall lies ahead of any interior cell in
each of the four directions, within `w + h` steps. -/
lemma wall_ahead (w h : Nat) (bm : List Base) (hb : perimWall w h bm)
    (p : Int × Int) (hp : interiorPos w h p) (dx dy : Int)
    (hd : (dx, dy) = ((-1 : Int), 0) ∨ (dx, dy) = (1, 0) ∨
      (dx, dy) = (0, -1) ∨ (dx, dy) = (0, 1)) :
    ∃ k : Nat, k < w + h ∧
      bm.getD (idx w (p.1 + ((k : Int) + 1) * dx) (p.2 + ((k : Int) + 1) * dy))
        Base.wall = Base.wall := by
  obtain ⟨h1, h2, h3, h4⟩ := hp
  rcases hd with hd | hd | hd | hd <;>
    obtain ⟨rfl, rfl⟩ := Prod.mk.injEq .. ▸ hd
  · -- direction (-1, 0): the wall at (0, p.2)
    refine ⟨(p.1 - 1).toNat, by omega, ?_⟩
    have hk : (((p.1 - 1).toNat : Nat) : Int) = p.1 - 1 := by omega
    have e1 : p.1 + (((p.1 - 1).toNat : Nat) + 1 : Int) * (-1 : Int) = ((0 : Nat) : Int) := by
      rw [hk]; push_cast; ring
    have e2 : p.2 + (((p.1 - 1).toNat : Nat) + 1 : Int) * (0 : Int) = ((p.2.toNat : Nat) : Int) := by
      have hc : ((p.2.toNat : Nat) : Int) = p.2 := Int.toNat_of_nonneg (by omega)
      rw [hc]; ring
    rw [idx_congr w e1 e2, idx_nat]
    exact hb 0 (by omega) p.2.toNat (by omega) (Or.inl rfl)
  · -- direction (1, 0): the wall at (w - 1, p.2)
    refine ⟨((w : Int) - 2 - p.1).toNat, by omega, ?_⟩
    have hk : ((((w : Int) - 2 - p.1).toNat : Nat) : Int) = (w : Int) - 2 - p.1 := by omega
    have e1 : p.1 + ((((w : Int) - 2 - p.1).toNat : Nat) + 1 : Int) * (1 : Int)
        = ((w - 1 : Nat) : Int) := by
      rw [hk]; push_cast [Nat.cast_sub (by omega : 1 ≤ w)]; ring
    have e2 : p.2 + ((((w : Int) - 2 - p.1).toNat : Nat) + 1 : Int) * (0 : Int)
        = ((p.2.toNat : Nat) : Int) := by
      have hc : ((p.2.toNat : Nat) : Int) = p.2 := Int.toNat_of_nonneg (by omega)
      rw [hc]; ring
    rw [idx_congr w e1 e2, idx_nat]
    exact hb (w - 1) (by omega) p.2.toNat (by omega) (Or.inr (Or.inl (by omega)))
  · -- direction (0, -1): the wall at (p.1, 0)
    refine ⟨(p.2 - 1).toNat, by omega, ?_⟩
    have hk : (((p.2 - 1).toNat : Nat) : Int) = p.2 - 1 := by omega
    have e1 : p.1 + (((p.2 - 1).toNat : Nat) + 1 : Int) * (0 : Int) = ((p.1.toNat : Nat) : Int) := by
      have hc : ((p.1.toNat : Nat) : Int) = p.1 := Int.toNat_of_nonneg (by omega)
      rw [hc]; ring
    have e2 : p.2 + (((p.2 - 1).toNat : Nat) + 1 : Int) * (-1 : Int) = ((0 : Nat) : Int) := by
      rw [hk]; push_cast; ring
    rw [idx_congr w e1 e2, idx_nat]
    exact hb p.1.toNat (by omega) 0 (by omega) (Or.inr (Or.inr (Or.inl rfl)))
  · -- direction (0, 1): the wall at (p.1, h - 1)
    refine ⟨((h : Int) - 2 - p.2).toNat, by omega, ?_⟩
    have hk : ((((h : Int) - 2 - p.2).toNat : Nat) : Int) = (h : Int) - 2 - p.2 := by omega
    have e1 : p.1 + ((((h : Int) - 2 - p.2).toNat : Nat) + 1 : Int) * (0 : Int)
        = ((p.1.toNat : Nat) : Int) := by
      have hc : ((p.1.toNat : Nat) : Int) = p.1 := Int.toNat_of_nonneg (by omega)
      rw [hc]; ring
    have e2 : p.2 + ((((h : Int) - 2 - p.2).toNat : Nat) + 1 : Int) * (1 : Int)
        = ((h - 1 : Nat) : Int) := by
      rw [hk]; push_cast [Nat.cast_sub (by omega : 1 ≤ h)]; ring
    rw [idx_congr w e1 e2, idx_nat]
    exact hb p.1.toNat (by omega) (h - 1) (by omega) (Or.inr (Or.inr (Or.inr (by omega))))

/-- `move_player` moves the player exactly to the slide result. -/
lemma move_player_player (w h : Nat) (g : GameState) (dx dy : Int) :
    (move_player w h g dx dy).player
      = slide w g.boardMeshes g.goalMeshes dx dy (w + h) g.player := by
  simp only [move_player]
  split <;> rfl

/-- `move_player` never writes the base layer. -/
lemma move_player_boardMeshes (w h : Nat) (g : GameState) (dx dy : Int) :
    (move_player w h g dx dy).boardMeshes = g.boardMeshes := by
  simp only [move_player]
  split <;> rfl

lemma slide_stay (w : Nat) (bm : List Base) (gm : List Overlay) (dx dy : Int)
    (fuel : Nat) (p : Int × Int)
    (hw : bm.getD (idx w (p.1 + dx) (p.2 + dy)) Base.wall = Base.wall) :
    slide w bm gm dx dy fuel p = p := by
  cases fuel with
  | zero => rfl
  | succ n => rw [slide_succ, if_pos hw]

/-- C1: under the border invariant with the token strictly inside, a move
advances the token cell by cell while the next cell in the direction is not
a wall and stops immediately upon entering a sticky (goop) cell: the
resting cell is `n` steps along the direction, no entered cell is a wall,
no strictly intermediate cell carries goop (so the token rests on the first
goop cell it enters and never goes beyond it), the stop is caused either by
a wall in the next cell or by goop at the resting cell, and the token does
not move at all when the adjacent cell in the requested direction is a
wall. -/
theorem C1_slide_semantics (w h : Nat) (g : GameState) (dx dy : Int)
    (hb : perimWall w h g.boardMeshes)
    (hp : interiorPos w h g.player)
    (hd : (dx, dy) = ((-1 : Int), 0) ∨ (dx, dy) = (1, 0) ∨
      (dx, dy) = (0, -1) ∨ (dx, dy) = (0, 1)) :
    ∃ n : Nat,
      (move_player w h g dx dy).player
        = (g.player.1 + n * dx, g.player.2 + n * dy) ∧
      (∀ i : Nat, 1 ≤ i → i ≤ n →
        g.boardMeshes.getD (idx w (g.player.1 + i * dx) (g.player.2 + i * dy))
          Base.wall ≠ Base.wall) ∧
      (∀ i : Nat, 1 ≤ i → i < n →
        g.goalMeshes.getD (idx w (g.player.1 + i * dx) (g.player.2 + i * dy))
          Overlay.vacant ≠ Overlay.goop) ∧
      (g.boardMeshes.getD
          (idx w (g.player.1 + (n + 1) * dx) (g.player.2 + (n + 1) * dy))
          Base.wall = Base.wall ∨
        (1 ≤ n ∧ g.goalMeshes.getD
          (idx w (g.player.1 + n * dx) (g.player.2 + n * dy))
          Overlay.vacant = Overlay.goop)) ∧
      (g.boardMeshes.getD (idx w (g.player.1 + dx) (g.player.2 + dy)) Base.wall
          = Base.wall →
        (move_player w h g dx dy).player = g.player) := by
  obtain ⟨k, hk, hkw⟩ := wall_ahead w h g.boardMeshes hb g.player hp dx dy hd
  obtain ⟨n, hs, hbw, hgp, hstop⟩ :=
    slide_char w g.boardMeshes g.goalMeshes dx dy (w + h) g.player.1 g.player.2
      ⟨k, hk, hkw⟩
  refine ⟨n, ?_, hbw, hgp, hstop, ?_⟩
  · rw [move_player_player]; exact hs
  · intro hwadj
    rw [move_player_player]
    exact slide_stay w g.boardMeshes g.goalMeshes dx dy (w + h) g.player hwadj

/-- Witness for C1: on the open 5 by 5 board with the token at `(2, 2)`,
moving right satisfies the slide characterisation. -/
theorem C1_slide_semantics_witness :
    perimWall 5 5 gsOpen.boardMeshes ∧ interiorPos 5 5 gsOpen.player ∧
    (∃ n : Nat,
      (move_player 5 5 gsOpen 1 0).player
        = (gsOpen.player.1 + n * 1, gsOpen.player.2 + n * 0) ∧
      (∀ i : Nat, 1 ≤ i → i ≤ n →
        gsOpen.boardMeshes.getD
          (idx 5 (gsOpen.player.1 + i * 1) (gsOpen.player.2 + i * 0))
          Base.wall ≠ Base.wall) ∧
      (∀ i : Nat, 1 ≤ i → i < n →
        gsOpen.goalMeshes.getD
          (idx 5 (gsOpen.player.1 + i * 1) (gsOpen.player.2 + i * 0))
          Overlay.vacant ≠ Overlay.goop) ∧
      (gsOpen.boardMeshes.getD
          (idx 5 (gsOpen.player.1 + (n + 1) * 1) (gsOpen.player.2 + (n + 1) * 0))
          Base.wall = Base.wall ∨
        (1 ≤ n ∧ gsOpen.goalMeshes.getD
          (idx 5 (gsOpen.player.1 + n * 1) (gsOpen.player.2 + n * 0))
          Overlay.vacant = Overlay.goop)) ∧
      (gsOpen.boardMeshes.getD (idx 5 (gsOpen.player.1 + 1) (gsOpen.player.2 + 0))
          Base.wall = Base.wall →
        (move_player 5 5 gsOpen 1 0).player = gsOpen.player)) :=
  ⟨by decide, by decide,
    C1_slide_semantics 5 5 gsOpen 1 0 (by decide) (by decide) (Or.inr (Or.inl rfl))⟩

/-!  Closed-form evaluation of the walk simulation on concrete streams.
The 2000-step folds are far too deep for direct kernel evaluation, so
each concrete scenario is evaluated through a closed-form trajectory
proved by induction on the number of steps.  -/

lemma foldl_ignore {α β : Type} (f : β → α → β) (g : β → β)
    (hf : ∀ b a, f b a = g b) : ∀ (l : List α) (b : β), l.foldl f b = g^[l.length] b
  | [], _ => rfl
  | a :: l, b => by
    show List.foldl f (f b a) l = g^[l.length + 1] b
    rw [foldl_ignore f g hf l (f b a), hf b a, Function.iterate_succ_apply]

lemma iterate_traj {γ : Type} (g : γ → γ) (A : Nat → γ) :
    ∀ m, (∀ k, k < m → g (A k) = A (k + 1)) → g^[m] (A 0) = A m
  | 0, _ => rfl
  | m+1, h => by
    rw [Function.iterate_succ_apply', iterate_traj g A m (fun k hk => h k (by omega)),
      h m (by omega)]

/-!  The constant-zero stream on the 4 by 3 board, player at `(1, 1)`:
every walk step stays at the player cell and bumps counter index 5.  -/

lemma wstepZ_iter (counts : List Nat) (i : Nat) (h5 : 5 < counts.length) :
    ∀ n : Nat,
      (walkStep 4 3 (interiorFloorFill 4 3) (List.replicate 12 Overlay.vacant))^[n + 1]
          ((1, 1), counts, ⟨streamZero, i⟩)
        = ((1, 1), counts.set 5 (counts.getD 5 0 + (n + 1)), ⟨streamZero, i + (n + 1)⟩)
  | 0 => by rw [Function.iterate_one]; rfl
  | n+1 => by
    rw [Function.iterate_succ_apply', wstepZ_iter counts i h5 n]
    show ((1, 1), (counts.set 5 (counts.getD 5 0 + (n + 1))).set 5
        ((counts.set 5 (counts.getD 5 0 + (n + 1))).getD 5 0 + 1),
      (⟨streamZero, i + (n + 1) + 1⟩ : Rng)) = _
    rw [getD_set_self counts 5 (counts.getD 5 0 + (n + 1)) 0 h5, List.set_set]
    exact rfl

/-- The inner 20-step fold of `runWalks` as a function iterate. -/
lemma walk20_eq_iterate (w h : Nat) (bm : List Base) (gm : List Overlay)
    (st : (Int × Int) × List Nat × Rng) :
    (List.range 20).foldl (fun st2 _ => walkStep w h bm gm st2) st
      = (walkStep w h bm gm)^[20] st := by
  rw [foldl_ignore (fun st2 _ => walkStep w h bm gm st2) (walkStep w h bm gm)
    (fun b a => rfl), List.length_range]

/-- `runWalks` as a 100-fold iterate of the per-walk transformer. -/
lemma runWalks_eq_iterate (w h : Nat) (bm : List Base) (gm : List Overlay)
    (start : Int × Int) (r : Rng) :
    runWalks w h bm gm start r
      = (fun (st : List Nat × Rng) =>
          (((List.range 20).foldl (fun st2 _ => walkStep w h bm gm st2)
              (start, st.1, st.2)).2.1,
            ((List.range 20).foldl (fun st2 _ => walkStep w h bm gm st2)
              (start, st.1, st.2)).2.2))^[100]
        (List.replicate (w * h) 0, r) := by
  unfold runWalks
  rw [foldl_ignore
    (fun (st : List Nat × Rng) _ =>
      let res := (List.range 20).foldl (fun st2 _ => walkStep w h bm gm st2)
        (start, st.1, st.2)
      (res.2.1, res.2.2))
    (fun (st : List Nat × Rng) =>
      (((List.range 20).foldl (fun st2 _ => walkStep w h bm gm st2)
          (start, st.1, st.2)).2.1,
        ((List.range 20).foldl (fun st2 _ => walkStep w h bm gm st2)
          (start, st.1, st.2)).2.2))
    (fun b a => rfl), List.length_range]

lemma innerZ (counts : List Nat) (j : Nat) (hc : 5 < counts.length) :
    (walkStep 4 3 (interiorFloorFill 4 3) (List.replicate 12 Overlay.vacant))^[20]
        ((1, 1), counts, ⟨streamZero, j⟩)
      = ((1, 1), counts.set 5 (counts.getD 5 0 + 20), ⟨streamZero, j + 20⟩) :=
  wstepZ_iter counts j hc 19

lemma runWalksZ (i : Nat) :
    runWalks 4 3 (interiorFloorFill 4 3) (List.replicate 12 Overlay.vacant) (1, 1)
        ⟨streamZero, i⟩
      = ((List.replicate 12 0).set 5 2000, ⟨streamZero, i + 2000⟩) := by
  refine (runWalks_eq_iterate 4 3 (interiorFloorFill 4 3)
    (List.replicate 12 Overlay.vacant) (1, 1) ⟨streamZero, i⟩).trans ?_
  refine iterate_traj
    (fun (st : List Nat × Rng) =>
      (((List.range 20).foldl
          (fun st2 _ =>
            walkStep 4 3 (interiorFloorFill 4 3) (List.replicate 12 Overlay.vacant) st2)
          ((1, 1), st.1, st.2)).2.1,
        ((List.range 20).foldl
          (fun st2 _ =>
            walkStep 4 3 (interiorFloorFill 4 3) (List.replicate 12 Overlay.vacant) st2)
          ((1, 1), st.1, st.2)).2.2))
    (fun k => ((List.replicate 12 0).set 5 (20 * k), ⟨streamZero, i + 20 * k⟩)) 100 ?_
  intro k _
  dsimp only
  rw [walk20_eq_iterate]
  rw [innerZ ((List.replicate 12 0).set 5 (20 * k)) (i + 20 * k) (by simp)]
  dsimp only
  rw [getD_set_self (List.replicate 12 0) 5 (20 * k) 0 (by simp), List.set_set]
  have e1 : 20 * k + 20 = 20 * (k + 1) := by ring
  have e2 : i + 20 * k + 20 = i + 20 * (k + 1) := by ring
  rw [e1, e2]

/-- On the constant-zero stream with the player at `(1, 1)` of a 4 by 3
board, every generation attempt draws two walls that land on the player
(skipped), no goop, and 2000 walk steps that never leave the player's cell,
so no candidate exists and zero goals are placed. -/
lemma attemptZ (i : Nat) :
    create_board_attempt 4 3 (1, 1) ⟨streamZero, i⟩
      = ⟨interiorFloorFill 4 3, List.replicate 12 Overlay.vacant, 0, (1, 1),
          ⟨streamZero, i + 2006⟩⟩ := by
  unfold create_board_attempt
  dsimp only
  rw [show (4 * 3) = 12 from rfl]
  rw [show placeWalls 4 3 (1, 1) (interiorFloorFill 4 3) ⟨streamZero, i⟩
      = (interiorFloorFill 4 3, ⟨streamZero, i + 5⟩) from rfl]
  dsimp only
  rw [show placeGoops 4 3 (interiorFloorFill 4 3) (List.replicate 12 Overlay.vacant)
        ⟨streamZero, i + 5⟩
      = (List.replicate 12 Overlay.vacant, ⟨streamZero, i + 6⟩) from rfl]
  dsimp only
  simp only [goalLoop]
  rw [if_pos (by omega : (0 : Nat) < 2)]
  try dsimp only
  rw [runWalksZ (i + 6)]
  try dsimp only
  rw [show possibleCells 4 3 (1, 1) (List.replicate 12 Overlay.vacant)
        ((List.replicate 12 0).set 5 2000)
      = ([] : List (Int × Int)) from rfl]
  rw [show (([] : List (Int × Int)).isEmpty) = true from rfl]
  rw [if_pos rfl]

/-- On the constant-zero stream every retry fails, for any fuel. -/
lemma create_board_streamZero_none :
    ∀ (fuel : Nat) (i : Nat), create_board fuel 4 3 (1, 1) ⟨streamZero, i⟩ = none
  | 0, _ => rfl
  | fuel+1, i => by
    simp only [create_board]
    rw [attemptZ i]
    rw [if_pos rfl]
    exact create_board_streamZero_none fuel (i + 2006)

lemma retryStream_shift (w h : Nat) (p : Int × Int) (r : Rng) :
    ∀ k, retryStream w h p r (k + 1)
      = retryStream w h p (create_board_attempt w h p r).rng k
  | 0 => rfl
  | k+1 => by
    show (create_board_attempt w h p (retryStream w h p r (k + 1))).rng = _
    rw [retryStream_shift w h p r k]
    rfl

/-- `create_board` returns nothing for the given fuel exactly when the
first `fuel` attempts all place zero goals. -/
lemma create_board_none_iff (w h : Nat) (p : Int × Int) :
    ∀ (fuel : Nat) (r : Rng),
      create_board fuel w h p r = none ↔
        ∀ k, k < fuel →
          (create_board_attempt w h p (retryStream w h p r k)).goals = 0
  | 0, r => by simp [create_board]
  | fuel+1, r => by
    simp only [create_board]
    by_cases hg : (create_board_attempt w h p r).goals = 0
    · rw [if_pos hg, create_board_none_iff w h p fuel (create_board_attempt w h p r).rng]
      constructor
      · intro hall k hk
        cases k with
        | zero => exact hg
        | succ k0 =>
          rw [retryStream_shift w h p r k0]
          exact hall k0 (by omega)
      · intro hall k hk
        rw [← retryStream_shift w h p r k]
        exact hall (k + 1) (by omega)
    · rw [if_neg hg]
      constructor
      · intro hc
        exact absurd hc (by simp)
      · intro hall
        exact absurd (hall 0 (by omega)) hg

/-- C4 (amended): the retrying generator terminates on a stream state
exactly when some retry stage's attempt places at least one objective;
termination does not hold unconditionally (see the counterexample on the
constant-zero stream). -/
theorem C4_termination_iff (w h : Nat) (p : Int × Int) (r : Rng) :
    CreateBoardTerminates w h p r ↔
      ∃ k, (create_board_attempt w h p (retryStream w h p r k)).goals ≠ 0 := by
  constructor
  · rintro ⟨fuel, hs⟩
    by_contra hne
    push_neg at hne
    have hnone : create_board fuel w h p r = none :=
      (create_board_none_iff w h p fuel r).2 (fun k _ => hne k)
    rw [hnone] at hs
    exact absurd hs (by simp)
  · rintro ⟨k, hk⟩
    refine ⟨k + 1, ?_⟩
    cases ho : create_board (k + 1) w h p r with
    | some v => rfl
    | none => exact absurd ((create_board_none_iff w h p (k + 1) r).1 ho k (by omega)) hk

/-- C4 (counterexample): on the constant-zero stream, with the player at
`(1, 1)` of a 4 by 3 board, `create_board` retries forever — every attempt
boxes the player in behind skipped wall draws and finds no candidate, so
the self-recursion never returns. -/
theorem C4_counterexample :
    ¬ CreateBoardTerminates 4 3 (1, 1) ⟨streamZero, 0⟩ := by
  rintro ⟨fuel, hs⟩
  rw [create_board_streamZero_none fuel 0] at hs
  exact absurd hs (by simp)

/-!  Generic closed form for walks that take one entry step from `s` to `q`
and then stay at `q`, always bumping the same counter index `iq`, while the
draw position stays inside a window of the stream.  This covers every
concrete generation scenario used below.  -/

lemma wstep_entry_stay (w h : Nat) (bm : List Base) (gm : List Overlay)
    (s q : Int × Int) (iq : Nat) (str : Nat → Nat) (lo hi : Nat)
    (h1 : ∀ (c : List Nat) (j : Nat), lo ≤ j → j < hi →
      walkStep w h bm gm (s, c, ⟨str, j⟩)
        = (q, c.set iq (c.getD iq 0 + 1), ⟨str, j + 1⟩))
    (h2 : ∀ (c : List Nat) (j : Nat), lo ≤ j → j < hi →
      walkStep w h bm gm (q, c, ⟨str, j⟩)
        = (q, c.set iq (c.getD iq 0 + 1), ⟨str, j + 1⟩))
    (c : List Nat) (hiq : iq < c.length) (pos : Nat) (hlo : lo ≤ pos)
    (hhi : pos + 20 ≤ hi) :
    (walkStep w h bm gm)^[20] (s, c, ⟨str, pos⟩)
      = (q, c.set iq (c.getD iq 0 + 20), ⟨str, pos + 20⟩) := by
  refine iterate_traj (walkStep w h bm gm)
    (fun k => (if k = 0 then s else q,
      if k = 0 then c else c.set iq (c.getD iq 0 + k), ⟨str, pos + k⟩)) 20 ?_
  intro k hk
  cases k with
  | zero =>
    show walkStep w h bm gm (s, c, ⟨str, pos + 0⟩)
      = (q, c.set iq (c.getD iq 0 + 1), ⟨str, pos + 0 + 1⟩)
    exact h1 c (pos + 0) (by omega) (by omega)
  | succ j =>
    show walkStep w h bm gm
        (q, c.set iq (c.getD iq 0 + (j + 1)), ⟨str, pos + (j + 1)⟩)
      = (q, c.set iq (c.getD iq 0 + (j + 1 + 1)), ⟨str, pos + (j + 1 + 1)⟩)
    rw [h2 (c.set iq (c.getD iq 0 + (j + 1))) (pos + (j + 1)) (by omega) (by omega)]
    rw [getD_set_self c iq (c.getD iq 0 + (j + 1)) 0 hiq, List.set_set]
    exact rfl

lemma runWalks_entry_stay (w h : Nat) (bm : List Base) (gm : List Overlay)
    (s q : Int × Int) (iq : Nat) (str : Nat → Nat) (lo hi : Nat)
    (h1 : ∀ (c : List Nat) (j : Nat), lo ≤ j → j < hi →
      walkStep w h bm gm (s, c, ⟨str, j⟩)
        = (q, c.set iq (c.getD iq 0 + 1), ⟨str, j + 1⟩))
    (h2 : ∀ (c : List Nat) (j : Nat), lo ≤ j → j < hi →
      walkStep w h bm gm (q, c, ⟨str, j⟩)
        = (q, c.set iq (c.getD iq 0 + 1), ⟨str, j + 1⟩))
    (hiq : iq < w * h) (pos : Nat) (hlo : lo ≤ pos) (hhi : pos + 2000 ≤ hi) :
    runWalks w h bm gm s ⟨str, pos⟩
      = ((List.replicate (w * h) 0).set iq 2000, ⟨str, pos + 2000⟩) := by
  refine (runWalks_eq_iterate w h bm gm s ⟨str, pos⟩).trans ?_
  rw [show (100 : Nat) = 99 + 1 from rfl, Function.iterate_succ_apply]
  have h0 : (List.range 20).foldl (fun st2 _ => walkStep w h bm gm st2)
        (s, List.replicate (w * h) 0, ⟨str, pos⟩)
      = (q, (List.replicate (w * h) 0).set iq 20, ⟨str, pos + 20⟩) := by
    rw [walk20_eq_iterate]
    rw [wstep_entry_stay w h bm gm s q iq str lo hi h1 h2
      (List.replicate (w * h) 0) (by simpa using hiq) pos hlo (by omega)]
    rw [getD_replicate 0 (w * h) iq, Nat.zero_add]
  dsimp only
  rw [h0]
  dsimp only
  refine iterate_traj
    (fun (st : List Nat × Rng) =>
      (((List.range 20).foldl (fun st2 _ => walkStep w h bm gm st2)
          (s, st.1, st.2)).2.1,
        ((List.range 20).foldl (fun st2 _ => walkStep w h bm gm st2)
          (s, st.1, st.2)).2.2))
    (fun m => ((List.replicate (w * h) 0).set iq (20 * (m + 1)),
      ⟨str, pos + 20 * (m + 1)⟩))
    99 ?_
  intro m hm
  dsimp only
  rw [walk20_eq_iterate]
  rw [wstep_entry_stay w h bm gm s q iq str lo hi h1 h2
    ((List.replicate (w * h) 0).set iq (20 * (m + 1))) (by simpa using hiq)
    (pos + 20 * (m + 1)) (by omega) (by omega)]
  rw [getD_set_self (List.replicate (w * h) 0) iq (20 * (m + 1)) 0
    (by simpa using hiq), List.set_set]
  have e1 : 20 * (m + 1) + 20 = 20 * (m + 1 + 1) := by ring
  have e2 : pos + 20 * (m + 1) + 20 = pos + 20 * (m + 1 + 1) := by ring
  rw [e1, e2]

/-!  Scenario on `streamA` (4 by 3 board, player `(1, 1)`): rightward walks
put the single objective on `(2, 1)`, the second iteration finds no
candidate, so the returned board has one goal and no checkpoint.  -/

lemma stepA1_move (c : List Nat) (j : Nat) (hlo : 6 ≤ j) (hhi : j < 2006) :
    walkStep 4 3 (interiorFloorFill 4 3) (List.replicate 12 Overlay.vacant)
      ((1, 1), c, ⟨streamA, j⟩)
      = ((2, 1), c.set 6 (c.getD 6 0 + 1), ⟨streamA, j + 1⟩) := by
  have hd : streamA j = 1 := by
    unfold streamA
    rw [if_neg (by omega : ¬(j ≤ 5 ∨ j = 2006))]
  simp only [walkStep, Rng.next]
  rw [hd]
  exact rfl

lemma stepA1_stay (c : List Nat) (j : Nat) (hlo : 6 ≤ j) (hhi : j < 2006) :
    walkStep 4 3 (interiorFloorFill 4 3) (List.replicate 12 Overlay.vacant)
      ((2, 1), c, ⟨streamA, j⟩)
      = ((2, 1), c.set 6 (c.getD 6 0 + 1), ⟨streamA, j + 1⟩) := by
  have hd : streamA j = 1 := by
    unfold streamA
    rw [if_neg (by omega : ¬(j ≤ 5 ∨ j = 2006))]
  simp only [walkStep, Rng.next]
  rw [hd]
  exact rfl

lemma stepA2_stay (c : List Nat) (j : Nat) (hlo : 2007 ≤ j) (hhi : j < 4007) :
    walkStep 4 3 (interiorFloorFill 4 3)
      ((List.replicate 12 Overlay.vacant).set 6 Overlay.checkpoint)
      ((2, 1), c, ⟨streamA, j⟩)
      = ((2, 1), c.set 6 (c.getD 6 0 + 1), ⟨streamA, j + 1⟩) := by
  have hd : streamA j = 1 := by
    unfold streamA
    rw [if_neg (by omega : ¬(j ≤ 5 ∨ j = 2006))]
  simp only [walkStep, Rng.next]
  rw [hd]
  exact rfl

lemma runWalksA1 :
    runWalks 4 3 (interiorFloorFill 4 3) (List.replicate 12 Overlay.vacant) (1, 1)
        ⟨streamA, 6⟩
      = ((List.replicate 12 0).set 6 2000, ⟨streamA, 2006⟩) := by
  have := runWalks_entry_stay 4 3 (interiorFloorFill 4 3)
    (List.replicate 12 Overlay.vacant) (1, 1) (2, 1) 6 streamA 6 2006
    stepA1_move stepA1_stay (by norm_num) 6 (le_refl 6) (by norm_num)
  rw [show (4 * 3) = 12 from rfl] at this
  rw [show (6 + 2000 : Nat) = 2006 from rfl] at this
  exact this

lemma runWalksA2 :
    runWalks 4 3 (interiorFloorFill 4 3)
        ((List.replicate 12 Overlay.vacant).set 6 Overlay.checkpoint) (2, 1)
        ⟨streamA, 2007⟩
      = ((List.replicate 12 0).set 6 2000, ⟨streamA, 4007⟩) := by
  have := runWalks_entry_stay 4 3 (interiorFloorFill 4 3)
    ((List.replicate 12 Overlay.vacant).set 6 Overlay.checkpoint) (2, 1) (2, 1) 6
    streamA 2007 4007 stepA2_stay stepA2_stay (by norm_num) 2007 (le_refl 2007)
    (by norm_num)
  rw [show (4 * 3) = 12 from rfl] at this
  rw [show (2007 + 2000 : Nat) = 4007 from rfl] at this
  exact this

lemma goalLoopA2 :
    goalLoop 4 3 (1, 1) (interiorFloorFill 4 3) 1
        ((List.replicate 12 Overlay.vacant).set 6 Overlay.checkpoint) 1 (2, 1)
        ⟨streamA, 2007⟩
      = ⟨interiorFloorFill 4 3,
          (List.replicate 12 Overlay.vacant).set 6 Overlay.checkpoint, 1, (2, 1),
          ⟨streamA, 4007⟩⟩ := by
  simp only [goalLoop]
  rw [if_pos (by omega : (1 : Nat) < 2)]
  rw [runWalksA2]
  dsimp only
  rw [show possibleCells 4 3 (1, 1)
        ((List.replicate 12 Overlay.vacant).set 6 Overlay.checkpoint)
        ((List.replicate 12 0).set 6 2000)
      = ([] : List (Int × Int)) from rfl]
  rw [show (([] : List (Int × Int)).isEmpty) = true from rfl]
  rw [if_pos rfl]

lemma goalLoopA1 :
    goalLoop 4 3 (1, 1) (interiorFloorFill 4 3) 2 (List.replicate 12 Overlay.vacant)
        0 (1, 1) ⟨streamA, 6⟩
      = ⟨interiorFloorFill 4 3,
          (List.replicate 12 Overlay.vacant).set 6 Overlay.checkpoint, 1, (2, 1),
          ⟨streamA, 4007⟩⟩ := by
  rw [show (2 : Nat) = 1 + 1 from rfl]
  rw [goalLoop]
  rw [if_pos (by omega : (0 : Nat) < 2)]
  rw [runWalksA1]
  dsimp only
  rw [show possibleCells 4 3 (1, 1) (List.replicate 12 Overlay.vacant)
        ((List.replicate 12 0).set 6 2000)
      = [((2 : Int), (1 : Int))] from rfl]
  rw [show (([((2 : Int), (1 : Int))] : List (Int × Int)).isEmpty) = false from rfl]
  rw [if_neg (by simp : ¬(false = true))]
  exact goalLoopA2

lemma attemptA :
    create_board_attempt 4 3 (1, 1) ⟨streamA, 0⟩
      = ⟨interiorFloorFill 4 3,
          (List.replicate 12 Overlay.vacant).set 6 Overlay.checkpoint, 1, (2, 1),
          ⟨streamA, 4007⟩⟩ := by
  unfold create_board_attempt
  dsimp only
  rw [show (4 * 3) = 12 from rfl]
  rw [show placeWalls 4 3 (1, 1) (interiorFloorFill 4 3) ⟨streamA, 0⟩
      = (interiorFloorFill 4 3, ⟨streamA, 5⟩) from rfl]
  dsimp only
  rw [show placeGoops 4 3 (interiorFloorFill 4 3) (List.replicate 12 Overlay.vacant)
        ⟨streamA, 5⟩
      = (List.replicate 12 Overlay.vacant, ⟨streamA, 6⟩) from rfl]
  dsimp only
  exact goalLoopA1

lemma create_boardA :
    create_board 1 4 3 (1, 1) ⟨streamA, 0⟩
      = some ((interiorFloorFill 4 3,
          (List.replicate 12 Overlay.vacant).set 6 Overlay.goal), ⟨streamA, 4007⟩) := by
  simp only [create_board]
  rw [attemptA]
  rw [if_neg (by decide :
    ¬(AttemptOut.mk (interiorFloorFill 4 3)
        ((List.replicate 12 Overlay.vacant).set 6 Overlay.checkpoint) 1 (2, 1)
        ⟨streamA, 4007⟩).goals = 0)]
  exact rfl

/-!  Scenario on `streamC` (4 by 3 board, player `(1, 1)`): the goop lands
on the player's own cell, the objective ends on `(2, 1)`.  -/

lemma stepC1_move (c : List Nat) (j : Nat) (hlo : 8 ≤ j) (hhi : j < 2008) :
    walkStep 4 3 (interiorFloorFill 4 3)
      ((List.replicate 12 Overlay.vacant).set 5 Overlay.goop)
      ((1, 1), c, ⟨streamC, j⟩)
      = ((2, 1), c.set 6 (c.getD 6 0 + 1), ⟨streamC, j + 1⟩) := by
  have hd : streamC j = 1 := by
    unfold streamC
    rw [if_neg (by omega : ¬j = 5), if_neg (by omega : ¬j ≤ 7),
      if_neg (by omega : ¬j = 2008)]
  simp only [walkStep, Rng.next]
  rw [hd]
  exact rfl

lemma stepC1_stay (c : List Nat) (j : Nat) (hlo : 8 ≤ j) (hhi : j < 2008) :
    walkStep 4 3 (interiorFloorFill 4 3)
      ((List.replicate 12 Overlay.vacant).set 5 Overlay.goop)
      ((2, 1), c, ⟨streamC, j⟩)
      = ((2, 1), c.set 6 (c.getD 6 0 + 1), ⟨streamC, j + 1⟩) := by
  have hd : streamC j = 1 := by
    unfold streamC
    rw [if_neg (by omega : ¬j = 5), if_neg (by omega : ¬j ≤ 7),
      if_neg (by omega : ¬j = 2008)]
  simp only [walkStep, Rng.next]
  rw [hd]
  exact rfl

lemma stepC2_stay (c : List Nat) (j : Nat) (hlo : 2009 ≤ j) (hhi : j < 4009) :
    walkStep 4 3 (interiorFloorFill 4 3)
      (((List.replicate 12 Overlay.vacant).set 5 Overlay.goop).set 6 Overlay.checkpoint)
      ((2, 1), c, ⟨streamC, j⟩)
      = ((2, 1), c.set 6 (c.getD 6 0 + 1), ⟨streamC, j + 1⟩) := by
  have hd : streamC j = 1 := by
    unfold streamC
    rw [if_neg (by omega : ¬j = 5), if_neg (by omega : ¬j ≤ 7),
      if_neg (by omega : ¬j = 2008)]
  simp only [walkStep, Rng.next]
  rw [hd]
  exact rfl

lemma runWalksC1 :
    runWalks 4 3 (interiorFloorFill 4 3)
        ((List.replicate 12 Overlay.vacant).set 5 Overlay.goop) (1, 1)
        ⟨streamC, 8⟩
      = ((List.replicate 12 0).set 6 2000, ⟨streamC, 2008⟩) := by
  have := runWalks_entry_stay 4 3 (interiorFloorFill 4 3)
    ((List.replicate 12 Overlay.vacant).set 5 Overlay.goop) (1, 1) (2, 1) 6
    streamC 8 2008 stepC1_move stepC1_stay (by norm_num) 8 (le_refl 8) (by norm_num)
  rw [show (4 * 3) = 12 from rfl] at this
  rw [show (8 + 2000 : Nat) = 2008 from rfl] at this
  exact this

lemma runWalksC2 :
    runWalks 4 3 (interiorFloorFill 4 3)
        (((List.replicate 12 Overlay.vacant).set 5 Overlay.goop).set 6
          Overlay.checkpoint) (2, 1) ⟨streamC, 2009⟩
      = ((List.replicate 12 0).set 6 2000, ⟨streamC, 4009⟩) := by
  have := runWalks_entry_stay 4 3 (interiorFloorFill 4 3)
    (((List.replicate 12 Overlay.vacant).set 5 Overlay.goop).set 6 Overlay.checkpoint)
    (2, 1) (2, 1) 6 streamC 2009 4009 stepC2_stay stepC2_stay (by norm_num) 2009
    (le_refl 2009) (by norm_num)
  rw [show (4 * 3) = 12 from rfl] at this
  rw [show (2009 + 2000 : Nat) = 4009 from rfl] at this
  exact this

lemma goalLoopC2 :
    goalLoop 4 3 (1, 1) (interiorFloorFill 4 3) 1
        (((List.replicate 12 Overlay.vacant).set 5 Overlay.goop).set 6
          Overlay.checkpoint) 1 (2, 1) ⟨streamC, 2009⟩
      = ⟨interiorFloorFill 4 3,
          ((List.replicate 12 Overlay.vacant).set 5 Overlay.goop).set 6
            Overlay.checkpoint, 1, (2, 1), ⟨streamC, 4009⟩⟩ := by
  simp only [goalLoop]
  rw [if_pos (by omega : (1 : Nat) < 2)]
  rw [runWalksC2]
  dsimp only
  rw [show possibleCells 4 3 (1, 1)
        (((List.replicate 12 Overlay.vacant).set 5 Overlay.goop).set 6
          Overlay.checkpoint)
        ((List.replicate 12 0).set 6 2000)
      = ([] : List (Int × Int)) from rfl]
  rw [show (([] : List (Int × Int)).isEmpty) = true from rfl]
  rw [if_pos rfl]

lemma goalLoopC1 :
    goalLoop 4 3 (1, 1) (interiorFloorFill 4 3) 2
        ((List.replicate 12 Overlay.vacant).set 5 Overlay.goop) 0 (1, 1)
        ⟨streamC, 8⟩
      = ⟨interiorFloorFill 4 3,
          ((List.replicate 12 Overlay.vacant).set 5 Overlay.goop).set 6
            Overlay.checkpoint, 1, (2, 1), ⟨streamC, 4009⟩⟩ := by
  rw [show (2 : Nat) = 1 + 1 from rfl]
  rw [goalLoop]
  rw [if_pos (by omega : (0 : Nat) < 2)]
  rw [runWalksC1]
  dsimp only
  rw [show possibleCells 4 3 (1, 1)
        ((List.replicate 12 Overlay.vacant).set 5 Overlay.goop)
        ((List.replicate 12 0).set 6 2000)
      = [((2 : Int), (1 : Int))] from rfl]
  rw [show (([((2 : Int), (1 : Int))] : List (Int × Int)).isEmpty) = false from rfl]
  rw [if_neg (by simp : ¬(false = true))]
  exact goalLoopC2

lemma attemptC :
    create_board_attempt 4 3 (1, 1) ⟨streamC, 0⟩
      = ⟨interiorFloorFill 4 3,
          ((List.replicate 12 Overlay.vacant).set 5 Overlay.goop).set 6
            Overlay.checkpoint, 1, (2, 1), ⟨streamC, 4009⟩⟩ := by
  unfold create_board_attempt
  dsimp only
  rw [show (4 * 3) = 12 from rfl]
  rw [show placeWalls 4 3 (1, 1) (interiorFloorFill 4 3) ⟨streamC, 0⟩
      = (interiorFloorFill 4 3, ⟨streamC, 5⟩) from rfl]
  dsimp only
  rw [show placeGoops 4 3 (interiorFloorFill 4 3) (List.replicate 12 Overlay.vacant)
        ⟨streamC, 5⟩
      = ((List.replicate 12 Overlay.vacant).set 5 Overlay.goop, ⟨streamC, 8⟩) from rfl]
  dsimp only
  exact goalLoopC1

lemma create_boardC :
    create_board 1 4 3 (1, 1) ⟨streamC, 0⟩
      = some ((interiorFloorFill 4 3,
          ((List.replicate 12 Overlay.vacant).set 5 Overlay.goop).set 6 Overlay.goal),
        ⟨streamC, 4009⟩) := by
  simp only [create_board]
  rw [attemptC]
  rw [if_neg (by decide :
    ¬(AttemptOut.mk (interiorFloorFill 4 3)
        (((List.replicate 12 Overlay.vacant).set 5 Overlay.goop).set 6
          Overlay.checkpoint) 1 (2, 1) ⟨streamC, 4009⟩).goals = 0)]
  exact rfl

/-!  Scenario on `streamD` (4 by 3 board, player `(2, 1)`): leftward walks
put the single objective on `(1, 1)`; shows the player position is read,
not reset, by regeneration.  -/

lemma stepD1_move (c : List Nat) (j : Nat) (hlo : 6 ≤ j) (hhi : j < 2006) :
    walkStep 4 3 (interiorFloorFill 4 3) (List.replicate 12 Overlay.vacant)
      ((2, 1), c, ⟨streamD, j⟩)
      = ((1, 1), c.set 5 (c.getD 5 0 + 1), ⟨streamD, j + 1⟩) := by
  have hd : streamD j = 0 := by
    unfold streamD
    rw [if_neg (by omega : ¬(j = 1 ∨ j = 3))]
  simp only [walkStep, Rng.next]
  rw [hd]
  exact rfl

lemma stepD1_stay (c : List Nat) (j : Nat) (hlo : 6 ≤ j) (hhi : j < 2006) :
    walkStep 4 3 (interiorFloorFill 4 3) (List.replicate 12 Overlay.vacant)
      ((1, 1), c, ⟨streamD, j⟩)
      = ((1, 1), c.set 5 (c.getD 5 0 + 1), ⟨streamD, j + 1⟩) := by
  have hd : streamD j = 0 := by
    unfold streamD
    rw [if_neg (by omega : ¬(j = 1 ∨ j = 3))]
  simp only [walkStep, Rng.next]
  rw [hd]
  exact rfl

lemma stepD2_stay (c : List Nat) (j : Nat) (hlo : 2007 ≤ j) (hhi : j < 4007) :
    walkStep 4 3 (interiorFloorFill 4 3)
      ((List.replicate 12 Overlay.vacant).set 5 Overlay.checkpoint)
      ((1, 1), c, ⟨streamD, j⟩)
      = ((1, 1), c.set 5 (c.getD 5 0 + 1), ⟨streamD, j + 1⟩) := by
  have hd : streamD j = 0 := by
    unfold streamD
    rw [if_neg (by omega : ¬(j = 1 ∨ j = 3))]
  simp only [walkStep, Rng.next]
  rw [hd]
  exact rfl

lemma runWalksD1 :
    runWalks 4 3 (interiorFloorFill 4 3) (List.replicate 12 Overlay.vacant) (2, 1)
        ⟨streamD, 6⟩
      = ((List.replicate 12 0).set 5 2000, ⟨streamD, 2006⟩) := by
  have := runWalks_entry_stay 4 3 (interiorFloorFill 4 3)
    (List.replicate 12 Overlay.vacant) (2, 1) (1, 1) 5 streamD 6 2006
    stepD1_move stepD1_stay (by norm_num) 6 (le_refl 6) (by norm_num)
  rw [show (4 * 3) = 12 from rfl] at this
  rw [show (6 + 2000 : Nat) = 2006 from rfl] at this
  exact this

lemma runWalksD2 :
    runWalks 4 3 (interiorFloorFill 4 3)
        ((List.replicate 12 Overlay.vacant).set 5 Overlay.checkpoint) (1, 1)
        ⟨streamD, 2007⟩
      = ((List.replicate 12 0).set 5 2000, ⟨streamD, 4007⟩) := by
  have := runWalks_entry_stay 4 3 (interiorFloorFill 4 3)
    ((List.replicate 12 Overlay.vacant).set 5 Overlay.checkpoint) (1, 1) (1, 1) 5
    streamD 2007 4007 stepD2_stay stepD2_stay (by norm_num) 2007 (le_refl 2007)
    (by norm_num)
  rw [show (4 * 3) = 12 from rfl] at this
  rw [show (2007 + 2000 : Nat) = 4007 from rfl] at this
  exact this

lemma goalLoopD2 :
    goalLoop 4 3 (2, 1) (interiorFloorFill 4 3) 1
        ((List.replicate 12 Overlay.vacant).set 5 Overlay.checkpoint) 1 (1, 1)
        ⟨streamD, 2007⟩
      = ⟨interiorFloorFill 4 3,
          (List.replicate 12 Overlay.vacant).set 5 Overlay.checkpoint, 1, (1, 1),
          ⟨streamD, 4007⟩⟩ := by
  simp only [goalLoop]
  rw [if_pos (by omega : (1 : Nat) < 2)]
  rw [runWalksD2]
  dsimp only
  rw [show possibleCells 4 3 (2, 1)
        ((List.replicate 12 Overlay.vacant).set 5 Overlay.checkpoint)
        ((List.replicate 12 0).set 5 2000)
      = ([] : List (Int × Int)) from rfl]
  rw [show (([] : List (Int × Int)).isEmpty) = true from rfl]
  rw [if_pos rfl]

lemma goalLoopD1 :
    goalLoop 4 3 (2, 1) (interiorFloorFill 4 3) 2 (List.replicate 12 Overlay.vacant)
        0 (2, 1) ⟨streamD, 6⟩
      = ⟨interiorFloorFill 4 3,
          (List.replicate 12 Overlay.vacant).set 5 Overlay.checkpoint, 1, (1, 1),
          ⟨streamD, 4007⟩⟩ := by
  rw [show (2 : Nat) = 1 + 1 from rfl]
  rw [goalLoop]
  rw [if_pos (by omega : (0 : Nat) < 2)]
  rw [runWalksD1]
  dsimp only
  rw [show possibleCells 4 3 (2, 1) (List.replicate 12 Overlay.vacant)
        ((List.replicate 12 0).set 5 2000)
      = [((1 : Int), (1 : Int))] from rfl]
  rw [show (([((1 : Int), (1 : Int))] : List (Int × Int)).isEmpty) = false from rfl]
  rw [if_neg (by simp : ¬(false = true))]
  exact goalLoopD2

lemma attemptD :
    create_board_attempt 4 3 (2, 1) ⟨streamD, 0⟩
      = ⟨interiorFloorFill 4 3,
          (List.replicate 12 Overlay.vacant).set 5 Overlay.checkpoint, 1, (1, 1),
          ⟨streamD, 4007⟩⟩ := by
  unfold create_board_attempt
  dsimp only
  rw [show (4 * 3) = 12 from rfl]
  rw [show placeWalls 4 3 (2, 1) (interiorFloorFill 4 3) ⟨streamD, 0⟩
      = (interiorFloorFill 4 3, ⟨streamD, 5⟩) from rfl]
  dsimp only
  rw [show placeGoops 4 3 (interiorFloorFill 4 3) (List.replicate 12 Overlay.vacant)
        ⟨streamD, 5⟩
      = (List.replicate 12 Overlay.vacant, ⟨streamD, 6⟩) from rfl]
  dsimp only
  exact goalLoopD1

lemma create_boardD :
    create_board 1 4 3 (2, 1) ⟨streamD, 0⟩
      = some ((interiorFloorFill 4 3,
          (List.replicate 12 Overlay.vacant).set 5 Overlay.goal), ⟨streamD, 4007⟩) := by
  simp only [create_board]
  rw [attemptD]
  rw [if_neg (by decide :
    ¬(AttemptOut.mk (interiorFloorFill 4 3)
        ((List.replicate 12 Overlay.vacant).set 5 Overlay.checkpoint) 1 (1, 1)
        ⟨streamD, 4007⟩).goals = 0)]
  exact rfl

/-!  Scenario on `streamG` (5 by 3 board, player `(1, 1)`, goop at `(2, 1)`):
each rightward walk stops once on the goop cell (index 7) and then settles
at `(3, 1)` (index 8); cell `(2, 1)` ends with visit count 100 but is not a
candidate, because its overlay is the goop mesh, not null.  -/

lemma stepG_a (c : List Nat) (j : Nat) (hlo : 8 ≤ j) (hhi : j < 2008) :
    walkStep 5 3 (interiorFloorFill 5 3)
      ((List.replicate 15 Overlay.vacant).set 7 Overlay.goop)
      ((1, 1), c, ⟨streamG, j⟩)
      = ((2, 1), c.set 7 (c.getD 7 0 + 1), ⟨streamG, j + 1⟩) := by
  have hd : streamG j = 1 := by
    unfold streamG
    rw [if_neg (by omega : ¬j = 0), if_neg (by omega : ¬j ≤ 4),
      if_neg (by omega : ¬j = 5), if_neg (by omega : ¬j ≤ 7),
      if_neg (by omega : ¬j = 2008)]
  simp only [walkStep, Rng.next]
  rw [hd]
  exact rfl

lemma stepG_b (c : List Nat) (j : Nat) (hlo : 8 ≤ j) (hhi : j < 2008) :
    walkStep 5 3 (interiorFloorFill 5 3)
      ((List.replicate 15 Overlay.vacant).set 7 Overlay.goop)
      ((2, 1), c, ⟨streamG, j⟩)
      = ((3, 1), c.set 8 (c.getD 8 0 + 1), ⟨streamG, j + 1⟩) := by
  have hd : streamG j = 1 := by
    unfold streamG
    rw [if_neg (by omega : ¬j = 0), if_neg (by omega : ¬j ≤ 4),
      if_neg (by omega : ¬j = 5), if_neg (by omega : ¬j ≤ 7),
      if_neg (by omega : ¬j = 2008)]
  simp only [walkStep, Rng.next]
  rw [hd]
  exact rfl

lemma stepG_c (c : List Nat) (j : Nat) (hlo : 8 ≤ j) (hhi : j < 2008) :
    walkStep 5 3 (interiorFloorFill 5 3)
      ((List.replicate 15 Overlay.vacant).set 7 Overlay.goop)
      ((3, 1), c, ⟨streamG, j⟩)
      = ((3, 1), c.set 8 (c.getD 8 0 + 1), ⟨streamG, j + 1⟩) := by
  have hd : streamG j = 1 := by
    unfold streamG
    rw [if_neg (by omega : ¬j = 0), if_neg (by omega : ¬j ≤ 4),
      if_neg (by omega : ¬j = 5), if_neg (by omega : ¬j ≤ 7),
      if_neg (by omega : ¬j = 2008)]
  simp only [walkStep, Rng.next]
  rw [hd]
  exact rfl

lemma innerG (c : List Nat) (pos : Nat) (h7 : 7 < c.length) (h8 : 8 < c.length)
    (hlo : 8 ≤ pos) (hhi : pos + 20 ≤ 2008) :
    (walkStep 5 3 (interiorFloorFill 5 3)
        ((List.replicate 15 Overlay.vacant).set 7 Overlay.goop))^[20]
        ((1, 1), c, ⟨streamG, pos⟩)
      = ((3, 1), (c.set 7 (c.getD 7 0 + 1)).set 8 (c.getD 8 0 + 19),
          ⟨streamG, pos + 20⟩) := by
  refine iterate_traj
    (walkStep 5 3 (interiorFloorFill 5 3)
      ((List.replicate 15 Overlay.vacant).set 7 Overlay.goop))
    (fun k => (if k = 0 then ((1 : Int), (1 : Int))
        else if k = 1 then (2, 1) else (3, 1),
      if k = 0 then c else if k = 1 then c.set 7 (c.getD 7 0 + 1)
        else (c.set 7 (c.getD 7 0 + 1)).set 8 (c.getD 8 0 + (k - 1)),
      ⟨streamG, pos + k⟩)) 20 ?_
  intro k hk
  match k with
  | 0 =>
    show walkStep 5 3 (interiorFloorFill 5 3)
        ((List.replicate 15 Overlay.vacant).set 7 Overlay.goop)
        ((1, 1), c, ⟨streamG, pos + 0⟩)
      = ((2, 1), c.set 7 (c.getD 7 0 + 1), ⟨streamG, pos + 1⟩)
    rw [stepG_a c (pos + 0) (by omega) (by omega)]
  | 1 =>
    show walkStep 5 3 (interiorFloorFill 5 3)
        ((List.replicate 15 Overlay.vacant).set 7 Overlay.goop)
        ((2, 1), c.set 7 (c.getD 7 0 + 1), ⟨streamG, pos + 1⟩)
      = ((3, 1), (c.set 7 (c.getD 7 0 + 1)).set 8 (c.getD 8 0 + 1),
          ⟨streamG, pos + 2⟩)
    rw [stepG_b (c.set 7 (c.getD 7 0 + 1)) (pos + 1) (by omega) (by omega)]
    rw [getD_set_ne c 7 8 (c.getD 7 0 + 1) 0 (by omega)]
  | j + 2 =>
    show walkStep 5 3 (interiorFloorFill 5 3)
        ((List.replicate 15 Overlay.vacant).set 7 Overlay.goop)
        ((3, 1), (c.set 7 (c.getD 7 0 + 1)).set 8 (c.getD 8 0 + (j + 1)),
          ⟨streamG, pos + (j + 2)⟩)
      = ((3, 1), (c.set 7 (c.getD 7 0 + 1)).set 8 (c.getD 8 0 + (j + 2)),
          ⟨streamG, pos + (j + 3)⟩)
    rw [stepG_c ((c.set 7 (c.getD 7 0 + 1)).set 8 (c.getD 8 0 + (j + 1)))
      (pos + (j + 2)) (by omega) (by omega)]
    rw [getD_set_self (c.set 7 (c.getD 7 0 + 1)) 8 (c.getD 8 0 + (j + 1)) 0
      (by simpa using h8)]
    rw [List.set_set]
    exact rfl

lemma runWalksG :
    runWalks 5 3 (interiorFloorFill 5 3)
        ((List.replicate 15 Overlay.vacant).set 7 Overlay.goop) (1, 1)
        ⟨streamG, 8⟩
      = (((List.replicate 15 0).set 7 100).set 8 1900, ⟨streamG, 2008⟩) := by
  refine (runWalks_eq_iterate 5 3 (interiorFloorFill 5 3)
    ((List.replicate 15 Overlay.vacant).set 7 Overlay.goop) (1, 1)
    ⟨streamG, 8⟩).trans ?_
  refine iterate_traj
    (fun (st : List Nat × Rng) =>
      (((List.range 20).foldl
          (fun st2 _ =>
            walkStep 5 3 (interiorFloorFill 5 3)
              ((List.replicate 15 Overlay.vacant).set 7 Overlay.goop) st2)
          ((1, 1), st.1, st.2)).2.1,
        ((List.range 20).foldl
          (fun st2 _ =>
            walkStep 5 3 (interiorFloorFill 5 3)
              ((List.replicate 15 Overlay.vacant).set 7 Overlay.goop) st2)
          ((1, 1), st.1, st.2)).2.2))
    (fun m => (((List.replicate 15 0).set 7 m).set 8 (19 * m),
      ⟨streamG, 8 + 20 * m⟩)) 100 ?_
  intro m hm
  dsimp only
  rw [walk20_eq_iterate]
  rw [innerG (((List.replicate 15 0).set 7 m).set 8 (19 * m)) (8 + 20 * m)
    (by simp) (by simp) (by omega) (by omega)]
  dsimp only
  rw [getD_set_ne ((List.replicate 15 0).set 7 m) 8 7 (19 * m) 0 (by omega)]
  rw [getD_set_self (List.replicate 15 0) 7 m 0 (by simp)]
  rw [getD_set_self ((List.replicate 15 0).set 7 m) 8 (19 * m) 0 (by simp)]
  rw [List.set_comm (19 * m) (m + 1) ((List.replicate 15 0).set 7 m)
    (by omega : (8 : Nat) ≠ 7)]
  rw [List.set_set, List.set_set]
  have e1 : 19 * m + 19 = 19 * (m + 1) := by ring
  have e2 : 8 + 20 * m + 20 = 8 + 20 * (m + 1) := by ring
  rw [e1, e2]

/-!  Scenario on `streamB` (5 by 3 board, player `(2, 1)`): walk directions
alternate right and left, so every walk oscillates between `(3, 1)` (index
8) and `(1, 1)` (index 6) and the two candidates end with the same visit
count 1000, exercising the tie handling of the limit-extension loop.  -/

lemma stepB_start (c : List Nat) (j : Nat) (hlo : 6 ≤ j) (hhi : j < 2006)
    (hpar : j % 2 = 0) :
    walkStep 5 3 (interiorFloorFill 5 3) (List.replicate 15 Overlay.vacant)
      ((2, 1), c, ⟨streamB, j⟩)
      = ((3, 1), c.set 8 (c.getD 8 0 + 1), ⟨streamB, j + 1⟩) := by
  have hd : streamB j = 1 := by
    unfold streamB
    rw [if_neg (by omega : ¬(j = 0 ∨ j = 5)), if_neg (by omega : ¬j ≤ 4),
      if_pos hpar]
  simp only [walkStep, Rng.next]
  rw [hd]
  exact rfl

lemma stepB_right (c : List Nat) (j : Nat) (hlo : 6 ≤ j) (hhi : j < 2006)
    (hpar : j % 2 = 0) :
    walkStep 5 3 (interiorFloorFill 5 3) (List.replicate 15 Overlay.vacant)
      ((1, 1), c, ⟨streamB, j⟩)
      = ((3, 1), c.set 8 (c.getD 8 0 + 1), ⟨streamB, j + 1⟩) := by
  have hd : streamB j = 1 := by
    unfold streamB
    rw [if_neg (by omega : ¬(j = 0 ∨ j = 5)), if_neg (by omega : ¬j ≤ 4),
      if_pos hpar]
  simp only [walkStep, Rng.next]
  rw [hd]
  exact rfl

lemma stepB_odd (c : List Nat) (j : Nat) (hlo : 6 ≤ j) (hhi : j < 2006)
    (hpar : j % 2 = 1) :
    walkStep 5 3 (interiorFloorFill 5 3) (List.replicate 15 Overlay.vacant)
      ((3, 1), c, ⟨streamB, j⟩)
      = ((1, 1), c.set 6 (c.getD 6 0 + 1), ⟨streamB, j + 1⟩) := by
  have hd : streamB j = 0 := by
    unfold streamB
    rw [if_neg (by omega : ¬(j = 0 ∨ j = 5)), if_neg (by omega : ¬j ≤ 4),
      if_neg (by omega : ¬j % 2 = 0)]
  simp only [walkStep, Rng.next]
  rw [hd]
  exact rfl

lemma wstepB_two (c : List Nat) (q : Nat) (hq : q % 2 = 1) (hlo : 6 ≤ q)
    (hhi : q + 2 ≤ 2006) :
    (walkStep 5 3 (interiorFloorFill 5 3) (List.replicate 15 Overlay.vacant))^[2]
        ((3, 1), c, ⟨streamB, q⟩)
      = ((3, 1), (c.set 6 (c.getD 6 0 + 1)).set 8 (c.getD 8 0 + 1),
          ⟨streamB, q + 2⟩) := by
  rw [show (2 : Nat) = 1 + 1 from rfl, Function.iterate_add_apply,
    Function.iterate_one]
  rw [stepB_odd c q (by omega) (by omega) hq]
  rw [stepB_right (c.set 6 (c.getD 6 0 + 1)) (q + 1) (by omega) (by omega)
    (by omega)]
  rw [getD_set_ne c 6 8 (c.getD 6 0 + 1) 0 (by omega)]

lemma wstepB_main (c : List Nat) (h6 : 6 < c.length) (h8 : 8 < c.length)
    (q : Nat) (hq : q % 2 = 1) (hlo : 6 ≤ q) :
    ∀ n : Nat, q + (2 * n + 2) ≤ 2006 →
      (walkStep 5 3 (interiorFloorFill 5 3) (List.replicate 15 Overlay.vacant))^[2 * n + 2]
          ((3, 1), c, ⟨streamB, q⟩)
        = ((3, 1), (c.set 6 (c.getD 6 0 + (n + 1))).set 8 (c.getD 8 0 + (n + 1)),
            ⟨streamB, q + (2 * n + 2)⟩)
  | 0, hhi => wstepB_two c q hq hlo (by omega)
  | n+1, hhi => by
    rw [show 2 * (n + 1) + 2 = 2 + (2 * n + 2) from by ring,
      Function.iterate_add_apply]
    rw [wstepB_main c h6 h8 q hq hlo n (by omega)]
    rw [wstepB_two ((c.set 6 (c.getD 6 0 + (n + 1))).set 8 (c.getD 8 0 + (n + 1)))
      (q + (2 * n + 2)) (by omega) (by omega) (by omega)]
    rw [getD_set_ne (c.set 6 (c.getD 6 0 + (n + 1))) 8 6 (c.getD 8 0 + (n + 1)) 0
      (by omega)]
    rw [getD_set_self c 6 (c.getD 6 0 + (n + 1)) 0 h6]
    rw [getD_set_self (c.set 6 (c.getD 6 0 + (n + 1))) 8 (c.getD 8 0 + (n + 1)) 0
      (by simpa using h8)]
    rw [List.set_comm (c.getD 8 0 + (n + 1)) (c.getD 6 0 + (n + 1) + 1)
      (c.set 6 (c.getD 6 0 + (n + 1))) (by omega : (8 : Nat) ≠ 6)]
    rw [List.set_set, List.set_set]
    have e1 : c.getD 6 0 + (n + 1) + 1 = c.getD 6 0 + (n + 1 + 1) := by ring
    have e2 : c.getD 8 0 + (n + 1) + 1 = c.getD 8 0 + (n + 1 + 1) := by ring
    have e3 : q + (2 * n + 2) + 2 = q + (2 + (2 * n + 2)) := by ring
    rw [e1, e2, e3]

lemma innerB (c : List Nat) (h6 : 6 < c.length) (h8 : 8 < c.length)
    (p : Nat) (hp : p % 2 = 0) (hlo : 6 ≤ p) (hhi : p + 20 ≤ 2006) :
    (walkStep 5 3 (interiorFloorFill 5 3) (List.replicate 15 Overlay.vacant))^[20]
        ((2, 1), c, ⟨streamB, p⟩)
      = ((1, 1), (c.set 8 (c.getD 8 0 + 10)).set 6 (c.getD 6 0 + 10),
          ⟨streamB, p + 20⟩) := by
  rw [show (20 : Nat) = 1 + 19 from rfl, Function.iterate_add_apply]
  rw [show (19 : Nat) = (2 * 8 + 2) + 1 from rfl, Function.iterate_add_apply,
    Function.iterate_one]
  rw [stepB_start c p (by omega) (by omega) hp]
  rw [wstepB_main (c.set 8 (c.getD 8 0 + 1)) (by simpa using h6) (by simpa using h8)
    (p + 1) (by omega) (by omega) 8 (by omega)]
  rw [getD_set_ne c 8 6 (c.getD 8 0 + 1) 0 (by omega)]
  rw [getD_set_self c 8 (c.getD 8 0 + 1) 0 h8]
  rw [List.set_comm (c.getD 8 0 + 1) (c.getD 6 0 + (8 + 1)) c
    (by omega : (8 : Nat) ≠ 6)]
  rw [List.set_set]
  rw [stepB_odd ((c.set 6 (c.getD 6 0 + (8 + 1))).set 8 (c.getD 8 0 + 1 + (8 + 1)))
    (p + 1 + (2 * 8 + 2)) (by omega) (by omega) (by omega)]
  rw [getD_set_ne (c.set 6 (c.getD 6 0 + (8 + 1))) 8 6 (c.getD 8 0 + 1 + (8 + 1)) 0
    (by omega)]
  rw [getD_set_self c 6 (c.getD 6 0 + (8 + 1)) 0 h6]
  rw [List.set_comm (c.getD 6 0 + (8 + 1)) (c.getD 8 0 + 1 + (8 + 1)) c
    (by omega : (6 : Nat) ≠ 8)]
  rw [List.set_set]

lemma runWalksB :
    runWalks 5 3 (interiorFloorFill 5 3) (List.replicate 15 Overlay.vacant) (2, 1)
        ⟨streamB, 6⟩
      = (((List.replicate 15 0).set 8 1000).set 6 1000, ⟨streamB, 2006⟩) := by
  refine (runWalks_eq_iterate 5 3 (interiorFloorFill 5 3)
    (List.replicate 15 Overlay.vacant) (2, 1) ⟨streamB, 6⟩).trans ?_
  refine iterate_traj
    (fun (st : List Nat × Rng) =>
      (((List.range 20).foldl
          (fun st2 _ =>
            walkStep 5 3 (interiorFloorFill 5 3) (List.replicate 15 Overlay.vacant) st2)
          ((2, 1), st.1, st.2)).2.1,
        ((List.range 20).foldl
          (fun st2 _ =>
            walkStep 5 3 (interiorFloorFill 5 3) (List.replicate 15 Overlay.vacant) st2)
          ((2, 1), st.1, st.2)).2.2))
    (fun m => (((List.replicate 15 0).set 8 (10 * m)).set 6 (10 * m),
      ⟨streamB, 6 + 20 * m⟩)) 100 ?_
  intro m hm
  dsimp only
  rw [walk20_eq_iterate]
  rw [innerB (((List.replicate 15 0).set 8 (10 * m)).set 6 (10 * m)) (by simp)
    (by simp) (6 + 20 * m) (by omega) (by omega) (by omega)]
  dsimp only
  rw [getD_set_ne ((List.replicate 15 0).set 8 (10 * m)) 6 8 (10 * m) 0 (by omega)]
  rw [getD_set_self (List.replicate 15 0) 8 (10 * m) 0 (by simp)]
  rw [getD_set_self ((List.replicate 15 0).set 8 (10 * m)) 6 (10 * m) 0 (by simp)]
  rw [List.set_comm (10 * m) (10 * m + 10) ((List.replicate 15 0).set 8 (10 * m))
    (by omega : (6 : Nat) ≠ 8)]
  rw [List.set_set, List.set_set]
  have e1 : 10 * m + 10 = 10 * (m + 1) := by ring
  have e2 : 6 + 20 * m + 20 = 6 + 20 * (m + 1) := by ring
  rw [e1, e2]

/-!  General facts about flat-vector writes, the interior fill, and the
flat index.  -/

lemma getD_set_same_val {α : Type} (l : List α) (i j : Nat) (v d : α)
    (h : l.getD j d = v) : (l.set i v).getD j d = v := by
  by_cases hij : i = j
  · subst hij
    by_cases hl : i < l.length
    · exact getD_set_self l i v d hl
    · rw [List.set_eq_of_length_le (by omega)]
      exact h
  · rw [getD_set_ne l i j v d hij]
    exact h

lemma not_mem_set {α : Type} (l : List α) (i : Nat) (v a : α) (ha : a ∉ l)
    (hv : a ≠ v) : a ∉ l.set i v := fun hm =>
  (List.mem_or_eq_of_mem_set hm).elim (fun h => ha h) (fun h => hv h)

lemma idx_lt (w h x y : Nat) (hx : x < w) (hy : y < h) : y * w + x < w * h := by
  have h1 : y * w + x < y * w + w := by omega
  have h2 : y * w + w = (y + 1) * w := by ring
  have h3 : (y + 1) * w ≤ h * w := Nat.mul_le_mul_right w (by omega)
  have h4 : h * w = w * h := by ring
  omega

lemma idx_inj (w x x' y y' : Nat) (hx : x < w) (hx' : x' < w)
    (he : y * w + x = y' * w + x') : x = x' ∧ y = y' := by
  have hmod : x % w = x' % w := by
    calc x % w = (x + y * w) % w := (Nat.add_mul_mod_self_right x y w).symm
      _ = (y * w + x) % w := by rw [Nat.add_comm]
      _ = (y' * w + x') % w := by rw [he]
      _ = (x' + y' * w) % w := by rw [Nat.add_comm]
      _ = x' % w := Nat.add_mul_mod_self_right x' y' w
  have hx2 : x = x' := by
    rw [Nat.mod_eq_of_lt hx, Nat.mod_eq_of_lt hx'] at hmod
    exact hmod
  refine ⟨hx2, ?_⟩
  have hyw : y * w = y' * w := by omega
  exact Nat.eq_of_mul_eq_mul_right (by omega) hyw

lemma foldl_set_length {α : Type} (v : α) (g : Nat → Nat) :
    ∀ (l : List Nat) (bm : List α),
      (l.foldl (fun b i => b.set (g i) v) bm).length = bm.length
  | [], _ => rfl
  | i :: l, bm => by
    rw [List.foldl_cons, foldl_set_length v g l (bm.set (g i) v), List.length_set]

lemma foldl_set_getD_pres {α : Type} (v d : α) (g : Nat → Nat) (j : Nat) :
    ∀ (l : List Nat) (bm : List α), bm.getD j d = v →
      (l.foldl (fun b i => b.set (g i) v) bm).getD j d = v
  | [], _, h => h
  | i :: l, bm, h => by
    rw [List.foldl_cons]
    exact foldl_set_getD_pres v d g j l (bm.set (g i) v)
      (getD_set_same_val bm (g i) j v d h)

lemma foldl_set_getD_mem {α : Type} (v d : α) (g : Nat → Nat) (j : Nat) :
    ∀ (l : List Nat) (bm : List α), (∃ i ∈ l, g i = j) → j < bm.length →
      (l.foldl (fun b i => b.set (g i) v) bm).getD j d = v
  | [], _, ⟨i, hi, _⟩, _ => absurd hi (List.not_mem_nil i)
  | i :: l, bm, ⟨i0, hi0, hg⟩, hlen => by
    rw [List.foldl_cons]
    rcases List.mem_cons.1 hi0 with he | ht
    · subst he
      refine foldl_set_getD_pres v d g j l (bm.set (g i0) v) ?_
      rw [hg]
      exact getD_set_self bm j v d hlen
    · exact foldl_set_getD_mem v d g j l (bm.set (g i) v) ⟨i0, ht, hg⟩
        (by rw [List.length_set]; exact hlen)

lemma foldl_set_getD_not_mem {α : Type} (v d : α) (g : Nat → Nat) (j : Nat) :
    ∀ (l : List Nat) (bm : List α), (∀ i ∈ l, g i ≠ j) →
      (l.foldl (fun b i => b.set (g i) v) bm).getD j d = bm.getD j d
  | [], _, _ => rfl
  | i :: l, bm, h => by
    rw [List.foldl_cons,
      foldl_set_getD_not_mem v d g j l (bm.set (g i) v)
        (fun i2 h2 => h i2 (List.mem_cons_of_mem i h2)),
      getD_set_ne bm (g i) j v d (h i (List.mem_cons_self i l))]

/-!  `interiorFloorFill`: length, interior cells are floor, perimeter cells
stay wall.  -/

lemma iff_outer_length (w h : Nat) :
    ∀ (xs : List Nat) (bm : List Base),
      (xs.foldl (fun bm x =>
          (List.range' 1 (h - 2)).foldl (fun bm y => bm.set (y * w + x) Base.floor) bm)
        bm).length = bm.length
  | [], _ => rfl
  | x :: xs, bm => by
    rw [List.foldl_cons, iff_outer_length w h xs]
    exact foldl_set_length Base.floor (fun y => y * w + x) (List.range' 1 (h - 2)) bm

lemma interiorFloorFill_length (w h : Nat) :
    (interiorFloorFill w h).length = w * h := by
  unfold interiorFloorFill
  rw [iff_outer_length w h, List.length_replicate]

lemma iff_outer_pres (w h : Nat) (j : Nat) :
    ∀ (xs : List Nat) (bm : List Base), bm.getD j Base.wall = Base.floor →
      (xs.foldl (fun bm x =>
          (List.range' 1 (h - 2)).foldl (fun bm y => bm.set (y * w + x) Base.floor) bm)
        bm).getD j Base.wall = Base.floor
  | [], _, hb => hb
  | x :: xs, bm, hb => by
    rw [List.foldl_cons]
    exact iff_outer_pres w h j xs _
      (foldl_set_getD_pres Base.floor Base.wall (fun y => y * w + x) j
        (List.range' 1 (h - 2)) bm hb)

lemma iff_outer_mem (w h x y : Nat) (hy1 : 1 ≤ y) (hy2 : y + 2 ≤ h) :
    ∀ (xs : List Nat) (bm : List Base), x ∈ xs → y * w + x < bm.length →
      (xs.foldl (fun bm x =>
          (List.range' 1 (h - 2)).foldl (fun bm y => bm.set (y * w + x) Base.floor) bm)
        bm).getD (y * w + x) Base.wall = Base.floor
  | [], _, hx, _ => absurd hx (List.not_mem_nil x)
  | x0 :: xs, bm, hx, hlen => by
    rw [List.foldl_cons]
    rcases List.mem_cons.1 hx with he | ht
    · subst he
      refine iff_outer_pres w h (y * w + x) xs _ ?_
      refine foldl_set_getD_mem Base.floor Base.wall (fun y2 => y2 * w + x) (y * w + x)
        (List.range' 1 (h - 2)) bm ⟨y, ?_, rfl⟩ hlen
      rw [List.mem_range'_1]
      omega
    · refine iff_outer_mem w h x y hy1 hy2 xs _ ht ?_
      rw [foldl_set_length]
      exact hlen

lemma interiorFloorFill_interior (w h x y : Nat) (hx1 : 1 ≤ x) (hx2 : x + 2 ≤ w)
    (hy1 : 1 ≤ y) (hy2 : y + 2 ≤ h) :
    (interiorFloorFill w h).getD (y * w + x) Base.wall = Base.floor := by
  unfold interiorFloorFill
  refine iff_outer_mem w h x y hy1 hy2 (List.range' 1 (w - 2))
    (List.replicate (w * h) Base.wall) ?_ ?_
  · rw [List.mem_range'_1]
    omega
  · rw [List.length_replicate]
    exact idx_lt w h x y (by omega) (by omega)

lemma iff_outer_untouched (w h : Nat) (j : Nat) :
    ∀ (xs : List Nat) (bm : List Base),
      (∀ x ∈ xs, ∀ y ∈ List.range' 1 (h - 2), y * w + x ≠ j) →
      (xs.foldl (fun bm x =>
          (List.range' 1 (h - 2)).foldl (fun bm y => bm.set (y * w + x) Base.floor) bm)
        bm).getD j Base.wall = bm.getD j Base.wall
  | [], _, _ => rfl
  | x :: xs, bm, hne => by
    rw [List.foldl_cons]
    rw [iff_outer_untouched w h j xs _
      (fun x2 hx2 y2 hy2 => hne x2 (List.mem_cons_of_mem x hx2) y2 hy2)]
    exact foldl_set_getD_not_mem Base.floor Base.wall (fun y => y * w + x) j
      (List.range' 1 (h - 2)) bm
      (fun y2 hy2 => hne x (List.mem_cons_self x xs) y2 hy2)

lemma interiorFloorFill_perim (w h : Nat) : perimWall w h (interiorFloorFill w h) := by
  intro x hx y hy hp
  unfold interiorFloorFill
  rw [iff_outer_untouched w h (y * w + x) (List.range' 1 (w - 2))
    (List.replicate (w * h) Base.wall) ?_]
  · exact getD_replicate Base.wall (w * h) (y * w + x)
  · intro x2 hx2 y2 hy2 he
    rw [List.mem_range'_1] at hx2 hy2
    have := idx_inj w x2 x y2 y (by omega) hx he
    omega

/-!  Random wall and goop placement: the perimeter stays wall, lengths are
preserved, and the player's cell is never turned into a wall.  -/

lemma idx_rand_ne (w h : Nat) (p : Int × Int) (hp : interiorPos w h p)
    (na nb : Nat)
    (hq : ((Int.ofNat (na % (w - 2) + 1), Int.ofNat (nb % (h - 2) + 1)) : Int × Int)
      ≠ p) :
    idx w (Int.ofNat (na % (w - 2) + 1)) (Int.ofNat (nb % (h - 2) + 1))
      ≠ idx w p.1 p.2 := by
  obtain ⟨h1, h2, h3, h4⟩ := hp
  intro he
  apply hq
  rw [show (Int.ofNat (na % (w - 2) + 1)) = ((na % (w - 2) + 1 : Nat) : Int) from rfl,
    show (Int.ofNat (nb % (h - 2) + 1)) = ((nb % (h - 2) + 1 : Nat) : Int) from rfl]
    at he ⊢
  have hw3 : 3 ≤ w := by omega
  have hh3 : 3 ≤ h := by omega
  have hx'w : na % (w - 2) + 1 < w := by
    have := Nat.mod_lt na (show 0 < w - 2 by omega)
    omega
  have hy'h : nb % (h - 2) + 1 < h := by
    have := Nat.mod_lt nb (show 0 < h - 2 by omega)
    omega
  have hpx : ((p.1.toNat : Nat) : Int) = p.1 := Int.toNat_of_nonneg (by omega)
  have hpy : ((p.2.toNat : Nat) : Int) = p.2 := Int.toNat_of_nonneg (by omega)
  have hpxw : p.1.toNat < w := by omega
  rw [idx_nat w (na % (w - 2) + 1) (nb % (h - 2) + 1)] at he
  rw [idx_congr w hpx.symm hpy.symm, idx_nat w p.1.toNat p.2.toNat] at he
  obtain ⟨hx2, hy2⟩ := idx_inj w (na % (w - 2) + 1) p.1.toNat
    (nb % (h - 2) + 1) p.2.toNat hx'w hpxw he
  have e1 : (((na % (w - 2) + 1 : Nat) : Int)) = p.1 := by rw [hx2]; exact hpx
  have e2 : (((nb % (h - 2) + 1 : Nat) : Int)) = p.2 := by rw [hy2]; exact hpy
  rw [Prod.ext_iff]
  exact ⟨e1, e2⟩

lemma placeWalls_perim (w h : Nat) (p : Int × Int) (bm : List Base) (r : Rng)
    (hb : perimWall w h bm) : perimWall w h (placeWalls w h p bm r).1 := by
  unfold placeWalls
  refine foldl_inv (fun (st : List Base × Rng) => perimWall w h st.1) _ _ _ hb ?_
  intro st a ha hP
  dsimp only
  by_cases hpr : (randomBoardPosition w h st.2).1 = p
  · rw [if_pos hpr]
    exact hP
  · rw [if_neg hpr]
    intro x hx y hy hperim
    exact getD_set_same_val st.1 _ (y * w + x) Base.wall Base.wall
      (hP x hx y hy hperim)

lemma placeWalls_length (w h : Nat) (p : Int × Int) (bm : List Base) (r : Rng) :
    (placeWalls w h p bm r).1.length = bm.length := by
  unfold placeWalls
  refine foldl_inv (fun (st : List Base × Rng) => st.1.length = bm.length) _ _ _ rfl ?_
  intro st a ha hP
  dsimp only
  by_cases hpr : (randomBoardPosition w h st.2).1 = p
  · rw [if_pos hpr]
    exact hP
  · rw [if_neg hpr]
    rw [List.length_set]
    exact hP

lemma placeWalls_player (w h : Nat) (p : Int × Int) (bm : List Base) (r : Rng)
    (hp : interiorPos w h p)
    (hb : bm.getD (idx w p.1 p.2) Base.wall ≠ Base.wall) :
    (placeWalls w h p bm r).1.getD (idx w p.1 p.2) Base.wall ≠ Base.wall := by
  unfold placeWalls
  refine foldl_inv
    (fun (st : List Base × Rng) => st.1.getD (idx w p.1 p.2) Base.wall ≠ Base.wall)
    _ _ _ hb ?_
  intro st a ha hP
  dsimp only
  by_cases hpr : (randomBoardPosition w h st.2).1 = p
  · rw [if_pos hpr]
    exact hP
  · rw [if_neg hpr]
    rw [getD_set_ne st.1
      (idx w (randomBoardPosition w h st.2).1.1 (randomBoardPosition w h st.2).1.2)
      (idx w p.1 p.2) Base.wall Base.wall
      (idx_rand_ne w h p hp st.2.next.1 st.2.next.2.next.1 hpr)]
    exact hP

lemma placeGoops_not_mem (w h : Nat) (bm : List Base) (gm : List Overlay) (r : Rng)
    (a : Overlay) (ha : a ∉ gm) (hg : a ≠ Overlay.goop) :
    a ∉ (placeGoops w h bm gm r).1 := by
  unfold placeGoops
  refine foldl_inv (fun (st : List Overlay × Rng) => a ∉ st.1) _ _ _ ha ?_
  intro st x hx hP
  dsimp only
  by_cases hw : bm.getD (idx w (randomBoardPosition w h st.2).1.1
      (randomBoardPosition w h st.2).1.2) Base.wall ≠ Base.wall
  · rw [if_pos hw]
    exact not_mem_set st.1 _ Overlay.goop a hP hg
  · rw [if_neg hw]
    exact hP

lemma placeGoops_length (w h : Nat) (bm : List Base) (gm : List Overlay) (r : Rng) :
    (placeGoops w h bm gm r).1.length = gm.length := by
  unfold placeGoops
  refine foldl_inv (fun (st : List Overlay × Rng) => st.1.length = gm.length) _ _ _ rfl ?_
  intro st x hx hP
  dsimp only
  by_cases hw : bm.getD (idx w (randomBoardPosition w h st.2).1.1
      (randomBoardPosition w h st.2).1.2) Base.wall ≠ Base.wall
  · rw [if_pos hw]
    rw [List.length_set]
    exact hP
  · rw [if_neg hw]
    exact hP

/-!  The candidate scan: a cell is collected exactly when it is in range,
is not the player's cell, carries no overlay, and has a positive visit
count.  -/

lemma pc_inner_mem (w : Nat) (player : Int × Int) (gm : List Overlay)
    (counts : List Nat) (y : Nat) (c : Int × Int) :
    ∀ (xs : List Nat) (acc : List (Int × Int)),
      (c ∈ xs.foldl (fun acc x =>
          if Int.ofNat x = player.1 ∧ Int.ofNat y = player.2 then acc
          else if gm.getD (y * w + x) Overlay.vacant ≠ Overlay.vacant then acc
          else if 0 < counts.getD (y * w + x) 0 then
            acc ++ [(Int.ofNat x, Int.ofNat y)]
          else acc) acc
        ↔ c ∈ acc ∨ ∃ x ∈ xs,
            ¬(Int.ofNat x = player.1 ∧ Int.ofNat y = player.2) ∧
            gm.getD (y * w + x) Overlay.vacant = Overlay.vacant ∧
            0 < counts.getD (y * w + x) 0 ∧ c = (Int.ofNat x, Int.ofNat y))
  | [], acc => by simp
  | x :: xs, acc => by
    rw [List.foldl_cons, pc_inner_mem w player gm counts y c xs _]
    by_cases h1 : Int.ofNat x = player.1 ∧ Int.ofNat y = player.2
    · rw [if_pos h1]
      constructor
      · rintro (hc | ⟨x2, hx2, hq⟩)
        · exact Or.inl hc
        · exact Or.inr ⟨x2, List.mem_cons_of_mem x hx2, hq⟩
      · rintro (hc | ⟨x2, hx2, hq⟩)
        · exact Or.inl hc
        · rcases List.mem_cons.1 hx2 with he | ht
          · subst he
            exact absurd h1 hq.1
          · exact Or.inr ⟨x2, ht, hq⟩
    · rw [if_neg h1]
      by_cases h2 : gm.getD (y * w + x) Overlay.vacant ≠ Overlay.vacant
      · rw [if_pos h2]
        constructor
        · rintro (hc | ⟨x2, hx2, hq⟩)
          · exact Or.inl hc
          · exact Or.inr ⟨x2, List.mem_cons_of_mem x hx2, hq⟩
        · rintro (hc | ⟨x2, hx2, hq⟩)
          · exact Or.inl hc
          · rcases List.mem_cons.1 hx2 with he | ht
            · subst he
              exact absurd hq.2.1 h2
            · exact Or.inr ⟨x2, ht, hq⟩
      · rw [if_neg h2]
        by_cases h3 : 0 < counts.getD (y * w + x) 0
        · rw [if_pos h3]
          constructor
          · rintro (hc | ⟨x2, hx2, hq⟩)
            · rcases List.mem_append.1 hc with hc1 | hc2
              · exact Or.inl hc1
              · refine Or.inr ⟨x, List.mem_cons_self x xs, h1, Decidable.not_not.1 h2, h3, ?_⟩
                simpa using hc2
            · exact Or.inr ⟨x2, List.mem_cons_of_mem x hx2, hq⟩
          · rintro (hc | ⟨x2, hx2, hq⟩)
            · exact Or.inl (List.mem_append.2 (Or.inl hc))
            · rcases List.mem_cons.1 hx2 with he | ht
              · subst he
                exact Or.inl (List.mem_append.2 (Or.inr (by simp [hq.2.2.2])))
              · exact Or.inr ⟨x2, ht, hq⟩
        · rw [if_neg h3]
          constructor
          · rintro (hc | ⟨x2, hx2, hq⟩)
            · exact Or.inl hc
            · exact Or.inr ⟨x2, List.mem_cons_of_mem x hx2, hq⟩
          · rintro (hc | ⟨x2, hx2, hq⟩)
            · exact Or.inl hc
            · rcases List.mem_cons.1 hx2 with he | ht
              · subst he
                exact absurd hq.2.2.1 h3
              · exact Or.inr ⟨x2, ht, hq⟩

lemma pc_outer_mem (w : Nat) (player : Int × Int) (gm : List Overlay)
    (counts : List Nat) (c : Int × Int) :
    ∀ (ys : List Nat) (acc : List (Int × Int)),
      (c ∈ ys.foldl (fun acc y =>
          (List.range w).foldl (fun acc x =>
              if Int.ofNat x = player.1 ∧ Int.ofNat y = player.2 then acc
              else if gm.getD (y * w + x) Overlay.vacant ≠ Overlay.vacant then acc
              else if 0 < counts.getD (y * w + x) 0 then
                acc ++ [(Int.ofNat x, Int.ofNat y)]
              else acc)
            acc) acc
        ↔ c ∈ acc ∨ ∃ y ∈ ys, ∃ x ∈ List.range w,
            ¬(Int.ofNat x = player.1 ∧ Int.ofNat y = player.2) ∧
            gm.getD (y * w + x) Overlay.vacant = Overlay.vacant ∧
            0 < counts.getD (y * w + x) 0 ∧ c = (Int.ofNat x, Int.ofNat y))
  | [], acc => by simp
  | y :: ys, acc => by
    rw [List.foldl_cons, pc_outer_mem w player gm counts c ys _,
      pc_inner_mem w player gm counts y c (List.range w) acc]
    constructor
    · rintro ((hc | ⟨x, hx, hq⟩) | ⟨y2, hy2, hrow⟩)
      · exact Or.inl hc
      · exact Or.inr ⟨y, List.mem_cons_self y ys, x, hx, hq⟩
      · exact Or.inr ⟨y2, List.mem_cons_of_mem y hy2, hrow⟩
    · rintro (hc | ⟨y2, hy2, hrow⟩)
      · exact Or.inl (Or.inl hc)
      · rcases List.mem_cons.1 hy2 with he | ht
        · subst he
          exact Or.inl (Or.inr hrow)
        · exact Or.inr ⟨y2, ht, hrow⟩

lemma possibleCells_mem (w h : Nat) (player : Int × Int) (gm : List Overlay)
    (counts : List Nat) (c : Int × Int) :
    c ∈ possibleCells w h player gm counts ↔
      ∃ x y, x < w ∧ y < h ∧
        ¬(Int.ofNat x = player.1 ∧ Int.ofNat y = player.2) ∧
        gm.getD (y * w + x) Overlay.vacant = Overlay.vacant ∧
        0 < counts.getD (y * w + x) 0 ∧ c = (Int.ofNat x, Int.ofNat y) := by
  unfold possibleCells
  rw [pc_outer_mem w player gm counts c (List.range h) []]
  simp only [List.not_mem_nil, false_or, List.mem_range]
  constructor
  · rintro ⟨y, hy, x, hx, hq⟩
    exact ⟨x, y, hx, hy, hq⟩
  · rintro ⟨x, y, hx, hy, hq⟩
    exact ⟨y, hy, x, hx, hq⟩

/-!  The stable sort and the limit-extension loop.  -/

lemma mem_insertByCount (key : Int × Int → Nat) (a b : Int × Int) :
    ∀ l, b ∈ insertByCount key a l ↔ b = a ∨ b ∈ l
  | [] => by simp [insertByCount]
  | x :: l => by
    simp only [insertByCount]
    by_cases hk : key x ≤ key a
    · rw [if_pos hk]
      rw [List.mem_cons, mem_insertByCount key a b l, List.mem_cons]
      tauto
    · rw [if_neg hk]
      rw [List.mem_cons, List.mem_cons]

lemma mem_stableSort_aux (key : Int × Int → Nat) (b : Int × Int) :
    ∀ (l acc : List (Int × Int)),
      b ∈ l.foldl (fun acc a => insertByCount key a acc) acc ↔ b ∈ acc ∨ b ∈ l
  | [], acc => by simp
  | a :: l, acc => by
    rw [List.foldl_cons, mem_stableSort_aux key b l _, mem_insertByCount key a b acc,
      List.mem_cons]
    tauto

lemma mem_stableSortByCount (key : Int × Int → Nat) (l : List (Int × Int))
    (b : Int × Int) : b ∈ stableSortByCount key l ↔ b ∈ l := by
  unfold stableSortByCount
  rw [mem_stableSort_aux key b l []]
  simp

lemma length_insertByCount (key : Int × Int → Nat) (a : Int × Int) :
    ∀ l, (insertByCount key a l).length = l.length + 1
  | [] => rfl
  | x :: l => by
    simp only [insertByCount]
    by_cases hk : key x ≤ key a
    · rw [if_pos hk]
      rw [List.length_cons, length_insertByCount key a l, List.length_cons]
    · rw [if_neg hk]
      rfl

lemma length_stableSort_aux (key : Int × Int → Nat) :
    ∀ (l acc : List (Int × Int)),
      (l.foldl (fun acc a => insertByCount key a acc) acc).length
        = acc.length + l.length
  | [], acc => rfl
  | a :: l, acc => by
    rw [List.foldl_cons, length_stableSort_aux key l _, length_insertByCount key a acc,
      List.length_cons]
    omega

lemma length_stableSortByCount (key : Int × Int → Nat) (l : List (Int × Int)) :
    (stableSortByCount key l).length = l.length := by
  unfold stableSortByCount
  rw [length_stableSort_aux key l []]
  simp

lemma extendLimitAux_ge (key : Int × Int → Nat) (cells : List (Int × Int)) :
    ∀ (f limit : Nat), limit ≤ extendLimitAux key cells f limit
  | 0, limit => le_refl limit
  | f+1, limit => by
    simp only [extendLimitAux]
    by_cases hg : limit + 1 < cells.length ∧
        key (cells.getD limit (0, 0)) = key (cells.getD (limit + 1) (0, 0))
    · rw [if_pos hg]
      exact le_trans (by omega) (extendLimitAux_ge key cells f (limit + 1))
    · rw [if_neg hg]

lemma extendLimitAux_le (key : Int × Int → Nat) (cells : List (Int × Int)) :
    ∀ (f limit : Nat), limit ≤ cells.length →
      extendLimitAux key cells f limit ≤ cells.length
  | 0, _, h => h
  | f+1, limit, h => by
    simp only [extendLimitAux]
    by_cases hg : limit + 1 < cells.length ∧
        key (cells.getD limit (0, 0)) = key (cells.getD (limit + 1) (0, 0))
    · rw [if_pos hg]
      exact extendLimitAux_le key cells f (limit + 1) (by omega)
    · rw [if_neg hg]
      exact h

lemma extendLimit_pos (key : Int × Int → Nat) (cells : List (Int × Int))
    (limit : Nat) (h : 1 ≤ limit) : 1 ≤ extendLimit key cells limit :=
  le_trans h (extendLimitAux_ge key cells cells.length limit)

lemma extendLimit_le (key : Int × Int → Nat) (cells : List (Int × Int))
    (limit : Nat) (h : limit ≤ cells.length) :
    extendLimit key cells limit ≤ cells.length :=
  extendLimitAux_le key cells cells.length limit h

/-!  The master invariant of the checkpoint-placement loop: the base layer
passes through untouched, the goal mesh is never written, the overlay
length is stable, the checkpoint count equals the objective counter, the
counter never exceeds two and never decreases, and once positive the
previous objective names an in-range cell now holding a checkpoint.  -/

lemma goalLoop_inv (w h : Nat) (player : Int × Int) (bm : List Base) :
    ∀ (fuel : Nat) (gm : List Overlay) (goals : Nat) (prev : Int × Int) (r : Rng),
      Overlay.goal ∉ gm → gm.length = w * h →
      countO Overlay.checkpoint gm = goals → goals + fuel ≤ 2 →
      (1 ≤ goals → idx w prev.1 prev.2 < w * h ∧
        gm.getD (idx w prev.1 prev.2) Overlay.vacant = Overlay.checkpoint) →
      (goalLoop w h player bm fuel gm goals prev r).bm = bm ∧
      Overlay.goal ∉ (goalLoop w h player bm fuel gm goals prev r).gm ∧
      (goalLoop w h player bm fuel gm goals prev r).gm.length = w * h ∧
      countO Overlay.checkpoint (goalLoop w h player bm fuel gm goals prev r).gm
        = (goalLoop w h player bm fuel gm goals prev r).goals ∧
      (goalLoop w h player bm fuel gm goals prev r).goals ≤ 2 ∧
      goals ≤ (goalLoop w h player bm fuel gm goals prev r).goals ∧
      (1 ≤ (goalLoop w h player bm fuel gm goals prev r).goals →
        idx w (goalLoop w h player bm fuel gm goals prev r).prevGoal.1
            (goalLoop w h player bm fuel gm goals prev r).prevGoal.2 < w * h ∧
        (goalLoop w h player bm fuel gm goals prev r).gm.getD
            (idx w (goalLoop w h player bm fuel gm goals prev r).prevGoal.1
              (goalLoop w h player bm fuel gm goals prev r).prevGoal.2)
            Overlay.vacant = Overlay.checkpoint)
  | 0, gm, goals, prev, r, hng, hlen, hcnt, hfc, hprev => by
    refine ⟨rfl, hng, hlen, hcnt, ?_, le_refl goals, hprev⟩
    show goals ≤ 2
    omega
  | fuel+1, gm, goals, prev, r, hng, hlen, hcnt, hfc, hprev => by
    have hg2 : goals < 2 := by omega
    by_cases hce : (possibleCells w h player gm (runWalks w h bm gm prev r).1).isEmpty
      = true
    · have heq : goalLoop w h player bm (fuel+1) gm goals prev r
          = ⟨bm, gm, goals, prev, (runWalks w h bm gm prev r).2⟩ := by
        simp only [goalLoop]
        rw [if_pos hg2]
        try dsimp only
        rw [if_pos hce]
      rw [heq]
      refine ⟨rfl, hng, hlen, hcnt, ?_, le_refl goals, hprev⟩
      show goals ≤ 2
      omega
    · simp only [goalLoop]
      rw [if_pos hg2]
      try dsimp only
      rw [if_neg hce]
      set wk := runWalks w h bm gm prev r with hwk
      set cells := possibleCells w h player gm wk.1 with hcellsdef
      set key := fun (c : Int × Int) => wk.1.getD (idx w c.1 c.2) 0 with hkeydef
      set sorted := stableSortByCount key cells with hsorteddef
      set limit := extendLimit key sorted (max 1 (sorted.length / 4)) with hlimitdef
      set dn := wk.2.next with hdndef
      set g := sorted.getD (dn.1 % limit) (0, 0) with hgdef
      have hcne : cells ≠ [] := by
        intro hnil
        rw [hnil] at hce
        exact hce rfl
      have hslen : sorted.length = cells.length := length_stableSortByCount key cells
      have hs1 : 1 ≤ sorted.length := by
        rw [hslen]
        exact List.length_pos.2 hcne
      have hl1 : 1 ≤ limit :=
        extendLimit_pos key sorted (max 1 (sorted.length / 4))
          (le_max_left 1 (sorted.length / 4))
      have hlle : limit ≤ sorted.length :=
        extendLimit_le key sorted (max 1 (sorted.length / 4))
          (max_le hs1 (Nat.div_le_self sorted.length 4))
      have hmod : dn.1 % limit < sorted.length :=
        lt_of_lt_of_le (Nat.mod_lt dn.1 (by omega)) hlle
      have hgmem : g ∈ sorted := getD_mem sorted (dn.1 % limit) (0, 0) hmod
      have hgcells : g ∈ cells := (mem_stableSortByCount key cells g).1 hgmem
      obtain ⟨x, y, hx, hy, hnp, hvac, hcnt0, hgeq⟩ :=
        (possibleCells_mem w h player gm wk.1 g).1 hgcells
      have hidx : idx w g.1 g.2 = y * w + x := by
        rw [hgeq]
        exact idx_nat w x y
      have hidxlt : idx w g.1 g.2 < w * h := by
        rw [hidx]
        exact idx_lt w h x y hx hy
      have hc := countO_set Overlay.checkpoint Overlay.checkpoint gm (idx w g.1 g.2)
        Overlay.vacant (by rw [hlen]; exact hidxlt)
      rw [hidx, hvac] at hc
      rw [show (if Overlay.vacant = Overlay.checkpoint then 1 else 0) = 0 from rfl,
        show (if Overlay.checkpoint = Overlay.checkpoint then 1 else 0) = 1 from rfl]
        at hc
      have hc2 : countO Overlay.checkpoint (gm.set (y * w + x) Overlay.checkpoint)
          = countO Overlay.checkpoint gm + 1 := by omega
      obtain ⟨i1, i2, i3, i4, i5, i6, i7⟩ :=
        goalLoop_inv w h player bm fuel (gm.set (idx w g.1 g.2) Overlay.checkpoint)
          (goals + 1) g dn.2
          (not_mem_set gm (idx w g.1 g.2) Overlay.checkpoint Overlay.goal hng
            (by decide))
          (by rw [List.length_set]; exact hlen)
          (by rw [hidx, hc2, hcnt])
          (by omega)
          (fun _ => ⟨hidxlt,
            getD_set_self gm (idx w g.1 g.2) Overlay.checkpoint Overlay.vacant
              (by rw [hlen]; exact hidxlt)⟩)
      exact ⟨i1, i2, i3, i4, i5, le_trans (by omega) i6, i7⟩

/-!  One full generation attempt, and the retry wrapper.  -/

lemma interiorFloorFill_player (w h : Nat) (p : Int × Int) (hp : interiorPos w h p) :
    (interiorFloorFill w h).getD (idx w p.1 p.2) Base.wall ≠ Base.wall := by
  obtain ⟨h1, h2, h3, h4⟩ := hp
  have hpx : ((p.1.toNat : Nat) : Int) = p.1 := Int.toNat_of_nonneg (by omega)
  have hpy : ((p.2.toNat : Nat) : Int) = p.2 := Int.toNat_of_nonneg (by omega)
  rw [idx_congr w hpx.symm hpy.symm, idx_nat w p.1.toNat p.2.toNat]
  rw [interiorFloorFill_interior w h p.1.toNat p.2.toNat (by omega) (by omega)
    (by omega) (by omega)]
  decide

lemma create_board_attempt_props (w h : Nat) (p : Int × Int) (r : Rng) :
    perimWall w h (create_board_attempt w h p r).bm ∧
    (interiorPos w h p →
      (create_board_attempt w h p r).bm.getD (idx w p.1 p.2) Base.wall
        ≠ Base.wall) ∧
    Overlay.goal ∉ (create_board_attempt w h p r).gm ∧
    (create_board_attempt w h p r).gm.length = w * h ∧
    countO Overlay.checkpoint (create_board_attempt w h p r).gm
      = (create_board_attempt w h p r).goals ∧
    (create_board_attempt w h p r).goals ≤ 2 ∧
    (1 ≤ (create_board_attempt w h p r).goals →
      idx w (create_board_attempt w h p r).prevGoal.1
          (create_board_attempt w h p r).prevGoal.2 < w * h ∧
      (create_board_attempt w h p r).gm.getD
          (idx w (create_board_attempt w h p r).prevGoal.1
            (create_board_attempt w h p r).prevGoal.2) Overlay.vacant
        = Overlay.checkpoint) := by
  unfold create_board_attempt
  try dsimp only
  obtain ⟨g1, g2, g3, g4, g5, g6, g7⟩ :=
    goalLoop_inv w h p (placeWalls w h p (interiorFloorFill w h) r).1 2
      (placeGoops w h (placeWalls w h p (interiorFloorFill w h) r).1
        (List.replicate (w * h) Overlay.vacant)
        (placeWalls w h p (interiorFloorFill w h) r).2).1 0 p
      (placeGoops w h (placeWalls w h p (interiorFloorFill w h) r).1
        (List.replicate (w * h) Overlay.vacant)
        (placeWalls w h p (interiorFloorFill w h) r).2).2
      (placeGoops_not_mem w h _ _ _ Overlay.goal
        (by simp [List.mem_replicate]) (by decide))
      (by rw [placeGoops_length, List.length_replicate])
      (countO_eq_zero_of_not_mem Overlay.checkpoint _
        (placeGoops_not_mem w h _ _ _ Overlay.checkpoint
          (by simp [List.mem_replicate]) (by decide)))
      (by omega)
      (fun hcontr => absurd hcontr (by omega))
  refine ⟨?_, ?_, g2, g3, g4, g5, g7⟩
  · rw [g1]
    exact placeWalls_perim w h p (interiorFloorFill w h) r (interiorFloorFill_perim w h)
  · intro hp
    rw [g1]
    exact placeWalls_player w h p (interiorFloorFill w h) r hp
      (interiorFloorFill_player w h p hp)

lemma create_board_some_cases (w h : Nat) (p : Int × Int) :
    ∀ (fuel : Nat) (r : Rng) (out : (List Base × List Overlay) × Rng),
      create_board fuel w h p r = some out →
      ∃ r0 : Rng, (create_board_attempt w h p r0).goals ≠ 0 ∧
        out = (((create_board_attempt w h p r0).bm,
            (create_board_attempt w h p r0).gm.set
              (idx w (create_board_attempt w h p r0).prevGoal.1
                (create_board_attempt w h p r0).prevGoal.2) Overlay.goal),
          (create_board_attempt w h p r0).rng)
  | 0, r, out, hc => absurd hc (by simp [create_board])
  | fuel+1, r, out, hc => by
    simp only [create_board] at hc
    by_cases hg : (create_board_attempt w h p r).goals = 0
    · rw [if_pos hg] at hc
      exact create_board_some_cases w h p fuel _ out hc
    · rw [if_neg hg] at hc
      exact ⟨r, hg, (Option.some_inj.1 hc).symm⟩

/-!  Frame facts of the regeneration entry points and of `move_player`.  -/

lemma applyCreate_frame (fuel w h : Nat) (g : GameState) (r : Rng)
    (out : GameState × Rng) (hc : applyCreate fuel w h g r = some out) :
    out.1.player = g.player ∧ out.1.won = g.won ∧
    out.1.checkpoints = g.checkpoints := by
  unfold applyCreate at hc
  cases hcb : create_board fuel w h g.player r with
  | none =>
    rw [hcb] at hc
    exact absurd hc (by simp)
  | some v =>
    rw [hcb] at hc
    have hv : ({ g with boardMeshes := v.1.1, goalMeshes := v.1.2 }, v.2) = out :=
      Option.some_inj.1 hc
    rw [← hv]
    exact ⟨rfl, rfl, rfl⟩

lemma advance_level_frame (fuel w h : Nat) (g : GameState) (r : Rng)
    (out : GameState × Rng) (hc : advance_level fuel w h g r = some out) :
    out.1.player = g.player ∧ out.1.won = g.won ∧
    out.1.checkpoints = g.checkpoints := by
  unfold advance_level at hc
  by_cases hw : g.won = true
  · rw [if_pos hw] at hc
    exact applyCreate_frame fuel w h g r out hc
  · rw [if_neg hw] at hc
    have hv : ((g, r) : GameState × Rng) = out := Option.some_inj.1 hc
    rw [← hv]
    exact ⟨rfl, rfl, rfl⟩

lemma give_up_frame (fuel w h : Nat) (g : GameState) (r : Rng)
    (out : GameState × Rng) (hc : give_up fuel w h g r = some out) :
    out.1.player = g.player ∧ out.1.won = g.won ∧
    out.1.checkpoints = g.checkpoints - 1 := by
  unfold give_up at hc
  by_cases hck : 0 < g.checkpoints
  · rw [if_pos hck] at hc
    obtain ⟨e1, e2, e3⟩ := applyCreate_frame fuel w h
      { g with checkpoints := g.checkpoints - 1 } r out hc
    exact ⟨e1, e2, e3⟩
  · rw [if_neg hck] at hc
    obtain ⟨e1, e2, e3⟩ := applyCreate_frame fuel w h g r out hc
    exact ⟨e1, e2, by omega⟩

lemma move_player_checkpoints (w h : Nat) (g : GameState) (dx dy : Int) :
    (move_player w h g dx dy).checkpoints
      = if g.goalMeshes.getD
            (idx w (slide w g.boardMeshes g.goalMeshes dx dy (w + h) g.player).1
              (slide w g.boardMeshes g.goalMeshes dx dy (w + h) g.player).2)
            Overlay.vacant = Overlay.checkpoint
        then g.checkpoints + 1 else g.checkpoints := by
  unfold move_player
  dsimp only
  by_cases hc : g.goalMeshes.getD
      (idx w (slide w g.boardMeshes g.goalMeshes dx dy (w + h) g.player).1
        (slide w g.boardMeshes g.goalMeshes dx dy (w + h) g.player).2)
      Overlay.vacant = Overlay.checkpoint
  · rw [if_pos hc, if_pos hc]
  · rw [if_neg hc, if_neg hc]

lemma move_player_goalMeshesEq (w h : Nat) (g : GameState) (dx dy : Int) :
    (move_player w h g dx dy).goalMeshes
      = if g.goalMeshes.getD
            (idx w (slide w g.boardMeshes g.goalMeshes dx dy (w + h) g.player).1
              (slide w g.boardMeshes g.goalMeshes dx dy (w + h) g.player).2)
            Overlay.vacant = Overlay.checkpoint
        then g.goalMeshes.set
            (idx w (slide w g.boardMeshes g.goalMeshes dx dy (w + h) g.player).1
              (slide w g.boardMeshes g.goalMeshes dx dy (w + h) g.player).2)
            Overlay.checkpointCollected
        else g.goalMeshes := by
  unfold move_player
  dsimp only
  by_cases hc : g.goalMeshes.getD
      (idx w (slide w g.boardMeshes g.goalMeshes dx dy (w + h) g.player).1
        (slide w g.boardMeshes g.goalMeshes dx dy (w + h) g.player).2)
      Overlay.vacant = Overlay.checkpoint
  · rw [if_pos hc, if_pos hc]
  · rw [if_neg hc, if_neg hc]

/-!  The claims.  -/

/-- C2: every board returned by `create_board` has an all-wall perimeter,
and a player move never writes the base layer at all, so no later step
turns a perimeter cell into a non-wall kind. -/
theorem C2_perimeter_wall :
    (∀ (fuel w h : Nat) (p : Int × Int) (r : Rng)
        (out : (List Base × List Overlay) × Rng),
        create_board fuel w h p r = some out → perimWall w h out.1.1) ∧
    (∀ (w h : Nat) (g : GameState) (dx dy : Int),
        (move_player w h g dx dy).boardMeshes = g.boardMeshes) := by
  constructor
  · intro fuel w h p r out hc
    obtain ⟨r0, hg, hout⟩ := create_board_some_cases w h p fuel r out hc
    rw [hout]
    exact (create_board_attempt_props w h p r0).1
  · exact move_player_boardMeshes

/-- C2 witness: the perimeter-wall conclusion instantiated on the
`streamA` board, and the move frame on a concrete 5 by 5 state. -/
theorem C2_perimeter_wall_witness :
    perimWall 4 3 (interiorFloorFill 4 3) ∧
    (move_player 5 5 gsOpen 1 0).boardMeshes = gsOpen.boardMeshes :=
  ⟨C2_perimeter_wall.1 1 4 3 (1, 1) ⟨streamA, 0⟩
      ((interiorFloorFill 4 3, (List.replicate 12 Overlay.vacant).set 6 Overlay.goal),
        ⟨streamA, 4007⟩) create_boardA,
    C2_perimeter_wall.2 5 5 gsOpen 1 0⟩

/-- C3: every board returned by `create_board` holds exactly one goal
overlay, obtained by re-tagging the last-placed checkpoint cell of a layer
that held no goal. -/
theorem C3_single_goal :
    ∀ (fuel w h : Nat) (p : Int × Int) (r : Rng)
      (out : (List Base × List Overlay) × Rng),
      create_board fuel w h p r = some out →
      countO Overlay.goal out.1.2 = 1 ∧
      ∃ (gmPrev : List Overlay) (i : Nat), i < gmPrev.length ∧
        gmPrev.getD i Overlay.vacant = Overlay.checkpoint ∧
        Overlay.goal ∉ gmPrev ∧ out.1.2 = gmPrev.set i Overlay.goal := by
  intro fuel w h p r out hc
  obtain ⟨r0, hg, hout⟩ := create_board_some_cases w h p fuel r out hc
  obtain ⟨a1, a2, a3, a4, a5, a6, a7⟩ := create_board_attempt_props w h p r0
  obtain ⟨hlt, hck⟩ := a7 (by omega)
  have hsnd : out.1.2 = (create_board_attempt w h p r0).gm.set
      (idx w (create_board_attempt w h p r0).prevGoal.1
        (create_board_attempt w h p r0).prevGoal.2) Overlay.goal := by
    rw [hout]
  constructor
  · rw [hsnd]
    have hc0 : countO Overlay.goal (create_board_attempt w h p r0).gm = 0 :=
      countO_eq_zero_of_not_mem Overlay.goal _ a3
    have hcs := countO_set Overlay.goal Overlay.goal
      (create_board_attempt w h p r0).gm
      (idx w (create_board_attempt w h p r0).prevGoal.1
        (create_board_attempt w h p r0).prevGoal.2)
      Overlay.vacant (by rw [a4]; exact hlt)
    rw [hck] at hcs
    rw [show (if Overlay.checkpoint = Overlay.goal then 1 else 0) = 0 from rfl,
      show (if Overlay.goal = Overlay.goal then 1 else 0) = 1 from rfl] at hcs
    omega
  · exact ⟨(create_board_attempt w h p r0).gm,
      idx w (create_board_attempt w h p r0).prevGoal.1
        (create_board_attempt w h p r0).prevGoal.2,
      by rw [a4]; exact hlt, hck, a3, hsnd⟩

/-- C3 witness: the single-goal conclusion instantiated on the `streamA`
board. -/
theorem C3_single_goal_witness :
    countO Overlay.goal ((List.replicate 12 Overlay.vacant).set 6 Overlay.goal) = 1 ∧
    ∃ (gmPrev : List Overlay) (i : Nat), i < gmPrev.length ∧
      gmPrev.getD i Overlay.vacant = Overlay.checkpoint ∧
      Overlay.goal ∉ gmPrev ∧
      (List.replicate 12 Overlay.vacant).set 6 Overlay.goal
        = gmPrev.set i Overlay.goal :=
  C3_single_goal 1 4 3 (1, 1) ⟨streamA, 0⟩
    ((interiorFloorFill 4 3, (List.replicate 12 Overlay.vacant).set 6 Overlay.goal),
      ⟨streamA, 4007⟩) create_boardA

/-- C5 counterexample: on `streamA` the returned board has zero checkpoint
cells — the second placement iteration finds no candidate, the single
objective is re-tagged as the goal, and no checkpoint remains, refuting
"at least one Checkpoint cell in addition to the single Goal". -/
theorem C5_counterexample :
    (create_board 1 4 3 (1, 1) ⟨streamA, 0⟩).map
        (fun out => countO Overlay.checkpoint out.1.2) = some 0 := by
  rw [create_boardA]
  rfl

/-- C5 (amended): every board returned by `create_board` has at most one
checkpoint cell (one fewer than its objective count, which is capped at
two); zero checkpoints occur exactly when only one objective was placed. -/
theorem C5_checkpoint_bound :
    ∀ (fuel w h : Nat) (p : Int × Int) (r : Rng)
      (out : (List Base × List Overlay) × Rng),
      create_board fuel w h p r = some out →
      countO Overlay.checkpoint out.1.2 ≤ 1 := by
  intro fuel w h p r out hc
  obtain ⟨r0, hg, hout⟩ := create_board_some_cases w h p fuel r out hc
  obtain ⟨a1, a2, a3, a4, a5, a6, a7⟩ := create_board_attempt_props w h p r0
  obtain ⟨hlt, hck⟩ := a7 (by omega)
  rw [hout]
  show countO Overlay.checkpoint ((create_board_attempt w h p r0).gm.set
      (idx w (create_board_attempt w h p r0).prevGoal.1
        (create_board_attempt w h p r0).prevGoal.2) Overlay.goal) ≤ 1
  have hcs := countO_set Overlay.checkpoint Overlay.goal
    (create_board_attempt w h p r0).gm
    (idx w (create_board_attempt w h p r0).prevGoal.1
      (create_board_attempt w h p r0).prevGoal.2)
    Overlay.vacant (by rw [a4]; exact hlt)
  rw [hck] at hcs
  rw [show (if Overlay.checkpoint = Overlay.checkpoint then 1 else 0) = 1 from rfl,
    show (if Overlay.goal = Overlay.checkpoint then 1 else 0) = 0 from rfl] at hcs
  omega

/-- C5 witness: the checkpoint bound instantiated on the `streamA` board. -/
theorem C5_checkpoint_bound_witness :
    countO Overlay.checkpoint ((List.replicate 12 Overlay.vacant).set 6 Overlay.goal)
      ≤ 1 :=
  C5_checkpoint_bound 1 4 3 (1, 1) ⟨streamA, 0⟩
    ((interiorFloorFill 4 3, (List.replicate 12 Overlay.vacant).set 6 Overlay.goal),
      ⟨streamA, 4007⟩) create_boardA

/-- C10: wall placement can never turn an interior player cell into a
wall, for any stream state and any fuel; yet goop placement may land on
the player's own cell, as the `streamC` run shows concretely. -/
theorem C10_wall_never_goop_maybe :
    (∀ (fuel w h : Nat) (p : Int × Int) (r : Rng)
        (out : (List Base × List Overlay) × Rng),
        interiorPos w h p → create_board fuel w h p r = some out →
        out.1.1.getD (idx w p.1 p.2) Base.wall ≠ Base.wall) ∧
    (create_board 1 4 3 (1, 1) ⟨streamC, 0⟩).map
        (fun out => out.1.2.getD (idx 4 1 1) Overlay.vacant) = some Overlay.goop := by
  constructor
  · intro fuel w h p r out hp hc
    obtain ⟨r0, hg, hout⟩ := create_board_some_cases w h p fuel r out hc
    rw [hout]
    exact (create_board_attempt_props w h p r0).2.1 hp
  · rw [create_boardC]
    rfl

/-- C10 witness: the never-a-wall conclusion instantiated on the `streamA`
board with the player at `(1, 1)`. -/
theorem C10_wall_never_goop_maybe_witness :
    interiorPos 4 3 ((1 : Int), (1 : Int)) ∧
    (interiorFloorFill 4 3).getD (idx 4 1 1) Base.wall ≠ Base.wall :=
  ⟨by decide, C10_wall_never_goop_maybe.1 1 4 3 (1, 1) ⟨streamA, 0⟩
    ((interiorFloorFill 4 3, (List.replicate 12 Overlay.vacant).set 6 Overlay.goal),
      ⟨streamA, 4007⟩) (by decide) create_boardA⟩

/-- C6: the limit-extension loop of line 483 does split a tie group.  On
the `streamB` run the sorted candidate list is `[(1, 1), (3, 1)]`, both
candidates share visit count 1000, yet the extended limit stays 1, so the
random pick draws only from the first candidate and the cutoff separates
two equal-count cells, contrary to the stated intent. -/
theorem C6_limit_splits_tie :
    stableSortByCount
        (fun c => (runWalks 5 3 (interiorFloorFill 5 3)
            (List.replicate 15 Overlay.vacant) (2, 1) ⟨streamB, 6⟩).1.getD
          (idx 5 c.1 c.2) 0)
        (possibleCells 5 3 (2, 1) (List.replicate 15 Overlay.vacant)
          (runWalks 5 3 (interiorFloorFill 5 3) (List.replicate 15 Overlay.vacant)
            (2, 1) ⟨streamB, 6⟩).1)
      = [((1 : Int), (1 : Int)), ((3 : Int), (1 : Int))] ∧
    (runWalks 5 3 (interiorFloorFill 5 3) (List.replicate 15 Overlay.vacant) (2, 1)
        ⟨streamB, 6⟩).1.getD (idx 5 1 1) 0
      = (runWalks 5 3 (interiorFloorFill 5 3) (List.replicate 15 Overlay.vacant)
          (2, 1) ⟨streamB, 6⟩).1.getD (idx 5 3 1) 0 ∧
    extendLimit
        (fun c => (runWalks 5 3 (interiorFloorFill 5 3)
            (List.replicate 15 Overlay.vacant) (2, 1) ⟨streamB, 6⟩).1.getD
          (idx 5 c.1 c.2) 0)
        (stableSortByCount
          (fun c => (runWalks 5 3 (interiorFloorFill 5 3)
              (List.replicate 15 Overlay.vacant) (2, 1) ⟨streamB, 6⟩).1.getD
            (idx 5 c.1 c.2) 0)
          (possibleCells 5 3 (2, 1) (List.replicate 15 Overlay.vacant)
            (runWalks 5 3 (interiorFloorFill 5 3) (List.replicate 15 Overlay.vacant)
              (2, 1) ⟨streamB, 6⟩).1))
        (max 1 ((stableSortByCount
          (fun c => (runWalks 5 3 (interiorFloorFill 5 3)
              (List.replicate 15 Overlay.vacant) (2, 1) ⟨streamB, 6⟩).1.getD
            (idx 5 c.1 c.2) 0)
          (possibleCells 5 3 (2, 1) (List.replicate 15 Overlay.vacant)
            (runWalks 5 3 (interiorFloorFill 5 3) (List.replicate 15 Overlay.vacant)
              (2, 1) ⟨streamB, 6⟩).1)).length / 4))
      = 1 := by
  have hw := runWalksB
  refine ⟨?_, ?_, ?_⟩
  · rw [hw]
    rfl
  · rw [hw]
    rfl
  · rw [hw]
    rfl

/-- C7 counterexample: on the `streamG` run the goop cell `(2, 1)` is
visited (count 100), is not the player's cell, holds only the goop overlay,
and still is not a candidate — the scan excludes every cell whose overlay
mesh is non-null, goop included, refuting "a visited cell that holds only a
Sticky obstacle is a candidate". -/
theorem C7_counterexample :
    (placeGoops 5 3 (interiorFloorFill 5 3) (List.replicate 15 Overlay.vacant)
        ⟨streamG, 5⟩).1 = (List.replicate 15 Overlay.vacant).set 7 Overlay.goop ∧
    ((List.replicate 15 Overlay.vacant).set 7 Overlay.goop).getD (idx 5 2 1)
        Overlay.vacant = Overlay.goop ∧
    0 < (runWalks 5 3 (interiorFloorFill 5 3)
        ((List.replicate 15 Overlay.vacant).set 7 Overlay.goop) (1, 1)
        ⟨streamG, 8⟩).1.getD (idx 5 2 1) 0 ∧
    ¬((2 : Int), (1 : Int)) = ((1 : Int), (1 : Int)) ∧
    ((2 : Int), (1 : Int)) ∉ possibleCells 5 3 (1, 1)
        ((List.replicate 15 Overlay.vacant).set 7 Overlay.goop)
        (runWalks 5 3 (interiorFloorFill 5 3)
          ((List.replicate 15 Overlay.vacant).set 7 Overlay.goop) (1, 1)
          ⟨streamG, 8⟩).1 := by
  refine ⟨rfl, rfl, ?_, by decide, ?_⟩
  · rw [runWalksG]
    decide
  · rw [runWalksG]
    decide

/-- C7 (amended): a cell is a candidate exactly when it is in range, is
not the player's cell, has a positive visit count, and carries no overlay
mesh at all — checkpoints, goals, collected checkpoints and goop alike
exclude it. -/
theorem C7_candidate_set (w h : Nat) (player : Int × Int) (gm : List Overlay)
    (counts : List Nat) (c : Int × Int) :
    c ∈ possibleCells w h player gm counts ↔
      ∃ x y, x < w ∧ y < h ∧
        ¬(Int.ofNat x = player.1 ∧ Int.ofNat y = player.2) ∧
        gm.getD (y * w + x) Overlay.vacant = Overlay.vacant ∧
        0 < counts.getD (y * w + x) 0 ∧ c = (Int.ofNat x, Int.ofNat y) :=
  possibleCells_mem w h player gm counts c

/-- C8 counterexample: regeneration reads the stored player position and
leaves both the player position and the win flag exactly as they were
before the call — a won state stays won, a distinct player position is
reused — so board, token and win flag are not created together. -/
theorem C8_counterexample :
    (give_up 1 4 3 gsA ⟨streamA, 0⟩).map (fun x => (x.1.player, x.1.won))
      = some ((((1 : Int), (1 : Int)), true)) ∧
    (give_up 1 4 3 gsC ⟨streamD, 0⟩).map (fun x => (x.1.player, x.1.won))
      = some ((((2 : Int), (1 : Int)), false)) := by
  constructor
  · have e1 : give_up 1 4 3 gsA ⟨streamA, 0⟩
        = (create_board 1 4 3 (1, 1) ⟨streamA, 0⟩).map
            (fun res => ({ gsA with
                boardMeshes := res.1.1
                goalMeshes := res.1.2 }, res.2)) := rfl
    rw [e1, create_boardA]
    rfl
  · have e2 : give_up 1 4 3 gsC ⟨streamD, 0⟩
        = (create_board 1 4 3 (2, 1) ⟨streamD, 0⟩).map
            (fun res => ({ gsC with
                boardMeshes := res.1.1
                goalMeshes := res.1.2 }, res.2)) := rfl
    rw [e2, create_boardD]
    rfl

/-- C8 (amended): every regeneration replaces only the two board layers;
the player position and the win flag are carried over unchanged from the
prior state, and the checkpoint counter is unchanged by regeneration
itself (the give-up path decrements it before regenerating, and the
decrement saturates at zero). -/
theorem C8_regen_frame :
    ∀ (fuel w h : Nat) (g : GameState) (r : Rng) (out : GameState × Rng),
      (applyCreate fuel w h g r = some out →
        out.1.player = g.player ∧ out.1.won = g.won ∧
        out.1.checkpoints = g.checkpoints) ∧
      (advance_level fuel w h g r = some out →
        out.1.player = g.player ∧ out.1.won = g.won ∧
        out.1.checkpoints = g.checkpoints) ∧
      (give_up fuel w h g r = some out →
        out.1.player = g.player ∧ out.1.won = g.won ∧
        out.1.checkpoints = g.checkpoints - 1) :=
  fun fuel w h g r out =>
    ⟨applyCreate_frame fuel w h g r out,
      advance_level_frame fuel w h g r out,
      give_up_frame fuel w h g r out⟩

/-- C8 witness: the frame conclusion instantiated on the `streamA`
regeneration of a concrete un-won state. -/
theorem C8_regen_frame_witness :
    ∃ out : GameState × Rng, applyCreate 1 4 3 gsB ⟨streamA, 0⟩ = some out ∧
      out.1.player = gsB.player ∧ out.1.won = gsB.won ∧
      out.1.checkpoints = gsB.checkpoints := by
  have hc : applyCreate 1 4 3 gsB ⟨streamA, 0⟩
      = some ({ gsB with
          boardMeshes := interiorFloorFill 4 3
          goalMeshes := (List.replicate 12 Overlay.vacant).set 6 Overlay.goal },
        ⟨streamA, 4007⟩) := by
    have e1 : applyCreate 1 4 3 gsB ⟨streamA, 0⟩
        = (create_board 1 4 3 (1, 1) ⟨streamA, 0⟩).map
            (fun res => ({ gsB with
                boardMeshes := res.1.1
                goalMeshes := res.1.2 }, res.2)) := rfl
    rw [e1, create_boardA]
    rfl
  exact ⟨_, hc, (C8_regen_frame 1 4 3 gsB ⟨streamA, 0⟩ _).1 hc⟩

/-- C9: the checkpoint counter rises by exactly one when and only when the
token rests on a cell still tagged checkpoint — that cell is re-tagged
collected in the same move, so returning to it adds nothing — give-up
lowers the counter by one saturating at zero, and regeneration and level
advance leave it unchanged. -/
theorem C9_counter_discipline :
    (∀ (w h : Nat) (g : GameState) (dx dy : Int),
        (move_player w h g dx dy).checkpoints
          = if g.goalMeshes.getD
                (idx w (slide w g.boardMeshes g.goalMeshes dx dy (w + h) g.player).1
                  (slide w g.boardMeshes g.goalMeshes dx dy (w + h) g.player).2)
                Overlay.vacant = Overlay.checkpoint
            then g.checkpoints + 1 else g.checkpoints) ∧
    (∀ (w h : Nat) (g : GameState) (dx dy : Int),
        (move_player w h g dx dy).goalMeshes
          = if g.goalMeshes.getD
                (idx w (slide w g.boardMeshes g.goalMeshes dx dy (w + h) g.player).1
                  (slide w g.boardMeshes g.goalMeshes dx dy (w + h) g.player).2)
                Overlay.vacant = Overlay.checkpoint
            then g.goalMeshes.set
                (idx w (slide w g.boardMeshes g.goalMeshes dx dy (w + h) g.player).1
                  (slide w g.boardMeshes g.goalMeshes dx dy (w + h) g.player).2)
                Overlay.checkpointCollected
            else g.goalMeshes) ∧
    (∀ (fuel w h : Nat) (g : GameState) (r : Rng) (out : GameState × Rng),
        give_up fuel w h g r = some out →
        out.1.checkpoints = g.checkpoints - 1) ∧
    (∀ (fuel w h : Nat) (g : GameState) (r : Rng) (out : GameState × Rng),
        applyCreate fuel w h g r = some out →
        out.1.checkpoints = g.checkpoints) ∧
    (∀ (fuel w h : Nat) (g : GameState) (r : Rng) (out : GameState × Rng),
        advance_level fuel w h g r = some out →
        out.1.checkpoints = g.checkpoints) :=
  ⟨move_player_checkpoints,
    move_player_goalMeshesEq,
    fun fuel w h g r out hc => (give_up_frame fuel w h g r out hc).2.2,
    fun fuel w h g r out hc => (applyCreate_frame fuel w h g r out hc).2.2,
    fun fuel w h g r out hc => (advance_level_frame fuel w h g r out hc).2.2⟩

/-- C9 witness: collecting the checkpoint of a concrete 5 by 5 board
raises the counter from 7 to 8, and a concrete give-up regeneration
lowers a zero counter to zero. -/
theorem C9_counter_discipline_witness :
    (move_player 5 5 gsCk 1 0).checkpoints = 8 ∧
    ∃ out : GameState × Rng, give_up 1 4 3 gsA ⟨streamA, 0⟩ = some out ∧
      out.1.checkpoints = gsA.checkpoints - 1 := by
  constructor
  · rw [C9_counter_discipline.1 5 5 gsCk 1 0]
    decide
  · have hc : give_up 1 4 3 gsA ⟨streamA, 0⟩
        = some ({ gsA with
            boardMeshes := interiorFloorFill 4 3
            goalMeshes := (List.replicate 12 Overlay.vacant).set 6 Overlay.goal },
          ⟨streamA, 4007⟩) := by
      have e1 : give_up 1 4 3 gsA ⟨streamA, 0⟩
          = (create_board 1 4 3 (1, 1) ⟨streamA, 0⟩).map
              (fun res => ({ gsA with
                  boardMeshes := res.1.1
                  goalMeshes := res.1.2 }, res.2)) := rfl
      rw [e1, create_boardA]
      rfl
    exact ⟨_, hc, C9_counter_discipline.2.2.1 1 4 3 gsA ⟨streamA, 0⟩ _ hc⟩

end Stickochet
